import Mathlib

/-!
# Verification of the city-grid traffic simulation

Shallow embedding of the simulation core found in `src/model.py` and
`src/agents/agents.py` (a mesa-based model: a static city grid, car agents
moving toward parking-lot destinations along A* paths, cyclic traffic
lights), together with proofs settling the frozen claims about it.

Conventions of the embedding:
* Grid coordinates are pairs of integers (Python tuples of ints).
* Python dictionaries (`came_from`, `g_score`, `f_score`,
  `parking_lot_ids`) are modelled as functions into `Option` or as
  association lists.
* The Python `set` used as the A* open set is modelled as an
  insertion-ordered duplicate-free list; `min(open_set, key=...)` keeps the
  first element attaining the minimal key, matching Python's `min`, with
  the list order standing in for CPython's (fixed, hash-determined)
  iteration order.
* The mesa model's shared `random.Random` instance is modelled as a
  pre-sampled stream `rngStream : Nat → Nat` plus a cursor `rngIdx`; a
  seed determines the stream, so equal seeds give equal streams.
* The two unbounded Python loops (the A* `while open_set` loop and the
  `reconstruct_path` walk) take an explicit fuel argument.  The model
  always supplies fuel `width*height + 1`: A* with the consistent
  Manhattan heuristic expands each cell at most once, so this bound is
  never reached on the grids the code builds.
-/

set_option maxHeartbeats 1000000

namespace CitySim

/-- A grid coordinate, exactly a Python `tuple[int, int]`. -/
abbrev Pos := Int × Int

/-- Road directions, the `'N' | 'S' | 'E' | 'W'` strings of the source. -/
inductive Dir | N | S | E | W
deriving DecidableEq, Repr

/-- Traffic light states, the `'Green' | 'Yellow' | 'Red'` strings. -/
inductive TLState | Green | Yellow | Red
deriving DecidableEq, Repr

/-- The immutable per-cell layers built by `CityModel.setup_environment`:
`buildings_layer`, `parking_lot_layer` and `road_direction_layer`, plus the
grid dimensions of the `MultiGrid`. -/
structure Layout where
  width : Nat
  height : Nat
  buildings : Pos → Bool
  parkingLot : Pos → Bool
  roadDirs : Pos → List Dir

/-- A `CarAgent`: `unique_id`, mesa grid position (`None` once removed),
`destination_pos`, `active`, `path`. -/
structure Car where
  uid : Nat
  pos : Option Pos
  destination : Option Pos
  active : Bool
  path : List Pos
deriving DecidableEq, Repr

/-- The per-state durations dict `{'Green': 5, 'Yellow': 2, 'Red': 5}`. -/
structure Durations where
  green : Nat
  yellow : Nat
  red : Nat
deriving DecidableEq, Repr

/-- A `TrafficLightAgent`: state, timer, durations, and a mesa grid
position.  The source never calls `grid.place_agent` on a light, so in
every state the code itself produces `pos = none`; the field exists
because `is_valid_move` inspects cell contents for lights. -/
structure TrafficLight where
  pos : Option Pos
  state : TLState
  timer : Nat
  durations : Durations
deriving DecidableEq, Repr

/-- The mutable state of a `CityModel`: the static layout, the
`parking_lot_ids` dict (as an association list in insertion order), the
`car_agents` and `traffic_light_agents` sets (insertion-ordered lists),
the shared RNG (pre-sampled stream plus cursor) and the `unique_id`
counter. -/
structure MState where
  layout : Layout
  parking_lot_ids : List (Pos × Nat)
  cars : List Car
  lights : List TrafficLight
  rngStream : Nat → Nat
  rngIdx : Nat
  nextId : Nat

/-- `mesa.space.MultiGrid.out_of_bounds` for a non-torus grid. -/
def out_of_bounds (L : Layout) (p : Pos) : Bool :=
  decide (p.1 < 0) || decide ((L.width : Int) ≤ p.1) ||
  decide (p.2 < 0) || decide ((L.height : Int) ≤ p.2)

/-- `mesa.space.MultiGrid.get_neighborhood` with `moore=False`,
`include_center=False` on a non-torus grid: the in-bounds von Neumann
neighbours, in the grid's x-major enumeration order. -/
def get_neighborhood (L : Layout) (p : Pos) : List Pos :=
  [(p.1 - 1, p.2), (p.1, p.2 - 1), (p.1, p.2 + 1), (p.1 + 1, p.2)].filter
    (fun q => !out_of_bounds L q)

/-- `CityModel.is_building`. -/
def is_building (s : MState) (p : Pos) : Bool := s.layout.buildings p

/-- `CityModel.is_parking_lot`. -/
def is_parking_lot (s : MState) (p : Pos) : Bool := s.layout.parkingLot p

/-- `CityModel.is_parking_lot_available`: a parking lot not currently
holding a `CarAgent` (traffic lights in the cell are ignored). -/
def is_parking_lot_available (s : MState) (p : Pos) : Bool :=
  if is_parking_lot s p = false then false
  else !(s.cars.any fun c => decide (c.pos = some p))

/-- The direction classification inside `CarAgent.is_valid_move` (lines
92-106): note the `if/elif` chain tests `dx == 1` first, so a target with
`dx = 1` is classified `'E'` whatever `dy` is, and similarly down the
chain; only when all four tests fail is the move rejected as
non-adjacent. -/
def movement_direction (from_pos to_pos : Pos) : Option Dir :=
  let dx := to_pos.1 - from_pos.1
  let dy := to_pos.2 - from_pos.2
  if dx = 1 then some Dir.E
  else if dx = -1 then some Dir.W
  else if dy = 1 then some Dir.N
  else if dy = -1 then some Dir.S
  else none

/-- `CarAgent.is_valid_move`, check for check in source order:
out-of-bounds, any car in the target cell (the mover itself included —
the `isinstance` scan does not exclude `self`), building, red traffic
light in the target cell (green and yellow fall through), then the
direction classification against the departure cell's allowed direction
set. -/
def is_valid_move (s : MState) (from_pos to_pos : Pos) : Bool :=
  if out_of_bounds s.layout to_pos then false
  else if s.cars.any (fun c => decide (c.pos = some to_pos)) then false
  else if is_building s to_pos then false
  else if s.lights.any (fun l =>
      decide (l.pos = some to_pos) && decide (l.state = TLState.Red)) then false
  else
    match movement_direction from_pos to_pos with
    | none => false
    | some d => decide (d ∈ s.layout.roadDirs from_pos)

/-- `CarAgent.get_valid_neighbors`. -/
def get_valid_neighbors (s : MState) (p : Pos) : List Pos :=
  (get_neighborhood s.layout p).filter (fun q => is_valid_move s p q)

/-- `CarAgent.heuristic`: Manhattan distance. -/
def heuristic (a b : Pos) : Nat :=
  (a.1 - b.1).natAbs + (a.2 - b.2).natAbs

/-! ## A* (`CarAgent.find_path`) -/

/-- The mutable state of the `find_path` loop: the open set (see module
header for the list representation) and the `came_from`, `g_score`,
`f_score` dicts. -/
structure AState where
  open_set : List Pos
  came_from : Pos → Option Pos
  g_score : Pos → Option Nat
  f_score : Pos → Option Nat

/-- Pointwise dict update. -/
def dupd {α : Type} (m : Pos → Option α) (k : Pos) (v : α) : Pos → Option α :=
  fun x => if x = k then some v else m x

/-- Strict comparison against `f_score.get(pos, float('inf'))`: a missing
entry compares as plus infinity. -/
def fLt : Option Nat → Option Nat → Bool
  | none, _ => false
  | some _, none => true
  | some a, some b => decide (a < b)

/-- `min(open_set, key=lambda pos: f_score.get(pos, float('inf')))`:
the first element attaining the minimal key. -/
def minByF (f : Pos → Option Nat) : Pos → List Pos → Pos
  | best, [] => best
  | best, p :: rest => minByF f (if fLt (f p) (f best) then p else best) rest

/-- Python `set.add`: append if absent. -/
def addIfAbsent (l : List Pos) (p : Pos) : List Pos :=
  if p ∈ l then l else l ++ [p]

/-- The body of the `for neighbor in self.get_valid_neighbors(current)`
loop: relax one neighbour.  `g_score[current]` is total in the source
because the loop only ever selects keys of `g_score`; the `getD 0`
default is never exercised under that invariant. -/
def relax (current : Pos) (σ : AState) (nb : Pos) (hgoal : Pos) : AState :=
  let tentative := (σ.g_score current).getD 0 + 1
  let better := match σ.g_score nb with
    | none => true
    | some v => decide (tentative < v)
  if better then
    { open_set := addIfAbsent σ.open_set nb
      came_from := fun x => if x = nb then some current else σ.came_from x
      g_score := dupd σ.g_score nb tentative
      f_score := dupd σ.f_score nb (tentative + heuristic nb hgoal) }
  else σ

/-- One expansion: `open_set.remove(current)` followed by the neighbour
loop. -/
def expand (s : MState) (goal : Pos) (σ : AState) (current : Pos) : AState :=
  (get_valid_neighbors s current).foldl
    (fun σ' nb => relax current σ' nb goal)
    { σ with open_set := σ.open_set.erase current }

/-- The `while current in came_from` walk of `CarAgent.reconstruct_path`.
The source appends predecessors then reverses; prepending builds the same
list.  Fuel bounds the walk (the source loop is unbounded; under the
invariants proved below the chain is shorter than the fuel supplied). -/
def reconstructAux (cf : Pos → Option Pos) : Nat → Pos → List Pos → List Pos
  | 0, _, acc => acc
  | fuel + 1, cur, acc =>
    match cf cur with
    | none => acc
    | some p => reconstructAux cf fuel p (p :: acc)

/-- `CarAgent.reconstruct_path`. -/
def reconstruct_path (cf : Pos → Option Pos) (current : Pos) (fuel : Nat) :
    List Pos :=
  reconstructAux cf fuel current [current]

/-- The `while open_set` loop of `CarAgent.find_path`.  `rfuel` is the
fuel handed to `reconstruct_path` on success. -/
def astarLoop (s : MState) (goal : Pos) (rfuel : Nat) :
    Nat → AState → List Pos
  | 0, _ => []
  | fuel + 1, σ =>
    match σ.open_set with
    | [] => []
    | a :: t =>
      let current := minByF σ.f_score a t
      if current = goal then reconstruct_path σ.came_from current rfuel
      else astarLoop s goal rfuel fuel (expand s goal σ current)

/-- `CarAgent.find_path`: A* from `start` to `goal` against the current
model state, returning the reconstructed sequence from start to goal
inclusive, or `[]` when the open set empties (or fuel runs out). -/
def find_path (s : MState) (start goal : Pos) (fuel : Nat) : List Pos :=
  astarLoop s goal fuel fuel
    { open_set := [start]
      came_from := fun _ => none
      g_score := fun p => if p = start then some 0 else none
      f_score := fun p => if p = start then some (heuristic start goal) else none }

/-- The fuel the model supplies to both loops (see module header). -/
def fuelOf (s : MState) : Nat := s.layout.width * s.layout.height + 1

/-- `CarAgent.calculate_path` = `find_path(self.pos, self.destination_pos)`.
With `destination_pos = None` the Python heuristic would raise a
`TypeError`; that combination is unreachable in runs (a car without a
destination is inactive), and the embedding returns `[]` there. -/
def calcPath (s : MState) (p : Pos) (dest : Option Pos) : List Pos :=
  match dest with
  | some d => find_path s p d (fuelOf s)
  | none => []

/-! ## Car state updates -/

/-- Look a car up by `unique_id`. -/
def findCar (s : MState) (uid : Nat) : Option Car :=
  s.cars.find? (fun c => decide (c.uid = uid))

/-- `grid.move_agent`: set the car's position. -/
def moveCar (s : MState) (uid : Nat) (q : Pos) : MState :=
  { s with cars := s.cars.map fun c =>
      if c.uid = uid then { c with pos := some q } else c }

/-- `self.path = ...`. -/
def setCarPath (s : MState) (uid : Nat) (path : List Pos) : MState :=
  { s with cars := s.cars.map fun c =>
      if c.uid = uid then { c with path := path } else c }

/-- `self.path.pop(0)`. -/
def popCarPath (s : MState) (uid : Nat) : MState :=
  { s with cars := s.cars.map fun c =>
      if c.uid = uid then { c with path := c.path.tail } else c }

/-- `self.active = False`. -/
def deactivateCar (s : MState) (uid : Nat) : MState :=
  { s with cars := s.cars.map fun c =>
      if c.uid = uid then { c with active := false } else c }

/-- `CarAgent.remove`: drop the car from the grid and from `car_agents`. -/
def removeCar (s : MState) (uid : Nat) : MState :=
  { s with cars := s.cars.filter fun c => decide (c.uid ≠ uid) }

/-- Advance the shared RNG cursor by one draw. -/
def bumpRng (s : MState) : MState := { s with rngIdx := s.rngIdx + 1 }

/-- `self.random.choice(l)` for nonempty `l`, drawn from the modelled
stream. -/
def randChoice (s : MState) (l : List Pos) (dflt : Pos) : Pos :=
  l.getD (s.rngStream s.rngIdx % l.length) dflt

/-! ## `CarAgent.step` -/

/-- `CarAgent.step`, acting on the shared model state; `uid` names the
stepping car.  Faithful to the source control flow: an inactive car does
nothing; a pathless car replans and, failing that, moves uniformly at
random to a valid neighbour (or stays put); with a nonempty path, the
head is inspected — if it equals the destination the car parks when the
lot is free (move, pop, deactivate, remove) and otherwise waits doing
nothing; any other head is entered when `is_valid_move` allows, else the
path is recomputed in place.  A successful replan falls through to the
movement logic within the same step, as in the source. -/
def CarAgent.step (s : MState) (uid : Nat) : MState :=
  match findCar s uid with
  | none => s
  | some c =>
    if c.active = false then s
    else
      match c.pos with
      | none => s
      | some p =>
        let path1 := if c.path.isEmpty then calcPath s p c.destination else c.path
        let s1 := if c.path.isEmpty then setCarPath s uid path1 else s
        match path1 with
        | [] =>
          match get_valid_neighbors s1 p with
          | [] => s1
          | q :: qs => moveCar (bumpRng s1) uid (randChoice s1 (q :: qs) q)
        | next :: _ =>
          if c.destination = some next then
            if is_parking_lot_available s1 next then
              removeCar (deactivateCar (popCarPath (moveCar s1 uid next) uid) uid) uid
            else s1
          else if is_valid_move s1 p next then
            popCarPath (moveCar s1 uid next) uid
          else setCarPath s1 uid (calcPath s1 p c.destination)

/-! ## `TrafficLightAgent` -/

/-- `TrafficLightAgent.change_state`: the Green → Yellow → Red → Green
cycle. -/
def change_state : TLState → TLState
  | TLState.Green => TLState.Yellow
  | TLState.Yellow => TLState.Red
  | TLState.Red => TLState.Green

/-- Duration lookup `self.durations[self.state]`. -/
def durationOf (d : Durations) : TLState → Nat
  | TLState.Green => d.green
  | TLState.Yellow => d.yellow
  | TLState.Red => d.red

/-- `TrafficLightAgent.step`. -/
def TrafficLightAgent.step (l : TrafficLight) : TrafficLight :=
  let t := l.timer + 1
  if durationOf l.durations l.state ≤ t then
    { l with state := change_state l.state, timer := 0 }
  else { l with timer := t }

/-! ## `CityModel.step` and queries -/

/-- `self.car_agents.do("step")`: iterate over a snapshot of the car ids
in insertion order, stepping each against the evolving state (a car
removed during its own step is simply absent when looked up later). -/
def stepCars (s : MState) : MState :=
  (s.cars.map Car.uid).foldl CarAgent.step s

/-- `CityModel.step`: all traffic lights first, then all cars. -/
def CityModel.step (s : MState) : MState :=
  stepCars { s with lights := s.lights.map TrafficLightAgent.step }

/-- `n` ticks. -/
def stepN : Nat → MState → MState
  | 0, s => s
  | n + 1, s => stepN n (CityModel.step s)

/-- `CityModel.get_car_positions`: one `{'id', 'position'}` record per
car with `active` true. -/
def get_car_positions (s : MState) : List (Nat × Option Pos) :=
  (s.cars.filter fun c => c.active).map fun c => (c.uid, c.pos)

/-- The per-tick position snapshots of a run of `n` ticks (tick 0 is the
initial state), the sequence the HTTP layer serializes. -/
def traceN (s : MState) (n : Nat) : List (List (Nat × Option Pos)) :=
  (List.range (n + 1)).map fun k => get_car_positions (stepN k s)

end CitySim

namespace CitySim

/-! ## Destination allocation (`CityModel.assign_random_destination`) -/

/-- The `possible_destinations` comprehension: configured parking-lot
cells, other than the excluded one, currently unoccupied. -/
def possible_destinations (s : MState) (exclude : Option Pos) : List Pos :=
  (s.parking_lot_ids.map Prod.fst).filter fun pos =>
    decide (some pos ≠ exclude) && is_parking_lot_available s pos

/-- `CityModel.assign_random_destination`: with no qualifying lot the car
is deactivated and keeps its destination; otherwise a uniformly random
qualifying lot becomes its destination. -/
def assign_random_destination (s : MState) (uid : Nat) (exclude : Option Pos) :
    MState :=
  match possible_destinations s exclude with
  | [] => deactivateCar s uid
  | d :: ds =>
    bumpRng { s with cars := s.cars.map fun c =>
      if c.uid = uid then { c with destination := some (randChoice s (d :: ds) d) }
      else c }

/-! ## Concrete fixtures used by the claim theorems -/

/-- An obstacle-free layout: no buildings, no parking lots, every
direction allowed everywhere. -/
def openLayout (W H : Nat) : Layout :=
  { width := W, height := H
    buildings := fun _ => false
    parkingLot := fun _ => false
    roadDirs := fun _ => [Dir.N, Dir.S, Dir.E, Dir.W] }

/-- A model state over a layout with no agents at all. -/
def emptyOn (L : Layout) : MState :=
  { layout := L, parking_lot_ids := [], cars := [], lights := []
    rngStream := fun _ => 0, rngIdx := 0, nextId := 1 }

/-- The obstacle-free model state of the optimality claim. -/
def openState (W H : Nat) : MState := emptyOn (openLayout W H)

end CitySim

namespace CitySim

/-- The scenario of claim C1: a lone car on an obstacle-free 3×3 grid at
`(0,0)`, destination `(0,1)`, no path yet. -/
def c1car : Car :=
  { uid := 1, pos := some (0, 0), destination := some (0, 1)
    active := true, path := [] }

/-- C1's model state (the 3×3 open grid with `c1car` placed). -/
def c1state : MState := { openState 3 3 with cars := [c1car], nextId := 2 }

/-- C1 (code bug).  `calculate_path` adopts the full A* sequence from
start to goal inclusive, so the head of the freshly adopted non-empty
path is the car's *own position* — Manhattan distance 0 — and not one of
the four cardinal neighbours of `position` (it is not even in the cell's
von Neumann neighbourhood, and the code's own direction classifier
rejects it as non-adjacent).  The spec's invariant 4 is therefore
violated immediately after every successful `calculate_path`. -/
theorem path_head_is_own_position_not_a_neighbor :
    calcPath c1state (0, 0) (some (0, 1)) = [(0, 0), (0, 1)] ∧
    (calcPath c1state (0, 0) (some (0, 1))).head? = some (0, 0) ∧
    ((0, 0) : Pos) ∉ get_neighborhood (openLayout 3 3) (0, 0) ∧
    movement_direction (0, 0) (0, 0) = none ∧
    heuristic (0, 0) (0, 0) = 0 := by
  refine ⟨by decide, by decide, by decide, by decide, by decide⟩

end CitySim

namespace CitySim

/-- A 3×3 open layout with a single parking lot at `(1,1)`. -/
def lotLayout33 : Layout :=
  { openLayout 3 3 with parkingLot := fun p => decide (p = ((1 : Int), (1 : Int))) }

/-- The arriving car of claim C3: at `(0,1)`, destination `(1,1)`, path
head already the destination. -/
def c3car : Car :=
  { uid := 1, pos := some (0, 1), destination := some (1, 1)
    active := true, path := [(1, 1)] }

/-- C3's model state. -/
def c3state : MState :=
  { layout := lotLayout33, parking_lot_ids := [((1, 1), 1)], cars := [c3car]
    lights := [], rngStream := fun _ => 0, rngIdx := 0, nextId := 2 }

/-- C3 counterexample.  All premises of the claim hold in `c3state` (path
head equals the destination parking lot, which is unoccupied), and after
the car's step the car is indeed gone — but the destination parking lot
is *unoccupied* afterwards (`is_parking_lot_available` is `true`), not
occupied as the claim asserts, because `CarAgent.remove` deletes the
arrived car from the grid. -/
theorem arrival_leaves_lot_unoccupied :
    c3car.path.head? = c3car.destination ∧
    is_parking_lot_available c3state (1, 1) = true ∧
    (CarAgent.step c3state 1).cars = [] ∧
    is_parking_lot_available (CarAgent.step c3state 1) (1, 1) = true := by
  refine ⟨by decide, by decide, by decide, by decide⟩

/-- Helper: a map that touches only cars with matching `unique_id` (and
never changes any `unique_id`) is invisible after the matching cars are
filtered away. -/
theorem filter_ne_uid_map (l : List Car) (uid : Nat) (h : Car → Car)
    (hid : ∀ c, c.uid ≠ uid → h c = c) (hkeep : ∀ c, (h c).uid = c.uid) :
    (l.map h).filter (fun c => decide (c.uid ≠ uid)) =
      l.filter (fun c => decide (c.uid ≠ uid)) := by
  induction l with
  | nil => rfl
  | cons c t ih =>
    simp only [decide_not] at ih
    by_cases hc : c.uid = uid
    · simp [hkeep c, hc, ih]
    · simp [hkeep c, hid c hc, hc, ih]

end CitySim

namespace CitySim

/-- Helper: the arrival branch of `CarAgent.step` (move into the lot, pop
the head, deactivate, remove) leaves exactly the other cars. -/
theorem arrival_cars_eq (s : MState) (uid : Nat) (next : Pos) :
    (removeCar (deactivateCar (popCarPath (moveCar s uid next) uid) uid) uid).cars
      = s.cars.filter (fun c' => decide (c'.uid ≠ uid)) := by
  unfold removeCar deactivateCar popCarPath moveCar
  simp only [List.map_map]
  refine filter_ne_uid_map _ _ _ (fun c hc => ?_) (fun c => ?_)
  · simp [Function.comp, if_neg hc]
  · simp only [Function.comp]
    by_cases hc : c.uid = uid <;> simp [hc]

/-- C3 (amended).  A car whose path head equals its destination parking
lot, with that lot unoccupied, does move into the lot during its step and
is deactivated and removed from the simulation — the car collection
afterwards is exactly the other cars — but the destination parking lot is
*unoccupied* afterwards (the arrived car no longer exists on the grid),
not occupied as the original claim stated. -/
theorem arrival_removes_car_lot_stays_free (s : MState) (uid : Nat) (c : Car)
    (p next : Pos) (rest : List Pos)
    (hfind : findCar s uid = some c) (hact : c.active = true)
    (hpos : c.pos = some p) (hpath : c.path = next :: rest)
    (hdest : c.destination = some next)
    (hav : is_parking_lot_available s next = true) :
    (CarAgent.step s uid).cars = s.cars.filter (fun c' => decide (c'.uid ≠ uid)) ∧
    is_parking_lot_available (CarAgent.step s uid) next = true := by
  have hstep : CarAgent.step s uid =
      removeCar (deactivateCar (popCarPath (moveCar s uid next) uid) uid) uid := by
    unfold CarAgent.step
    simp only [hfind, hact, hpos, hpath, hdest, hav]
    simp
    intro h
    simp [h] at hav
  have hcars : (CarAgent.step s uid).cars
      = s.cars.filter (fun c' => decide (c'.uid ≠ uid)) := by
    rw [hstep, arrival_cars_eq]
  refine ⟨hcars, ?_⟩
  have hlay : (CarAgent.step s uid).layout = s.layout := by rw [hstep]; rfl
  unfold is_parking_lot_available is_parking_lot at hav ⊢
  rw [hlay, hcars]
  split at hav
  · exact absurd hav (by simp)
  · rename_i hlot
    rw [if_neg hlot]
    simp only [Bool.not_eq_true'] at hav
    have hall := List.any_eq_false.mp hav
    simp only [Bool.not_eq_true']
    apply List.any_eq_false.mpr
    intro x hx
    exact hall x (List.mem_of_mem_filter hx)

/-- Witness for C3's amended theorem at the concrete arrival scenario. -/
theorem arrival_removes_car_lot_stays_free_witness :
    (CarAgent.step c3state 1).cars
        = c3state.cars.filter (fun c' => decide (c'.uid ≠ 1)) ∧
    is_parking_lot_available (CarAgent.step c3state 1) (1, 1) = true :=
  arrival_removes_car_lot_stays_free c3state 1 c3car (0, 1) (1, 1) []
    (by decide) (by decide) (by decide) (by decide) (by decide) (by decide)

end CitySim

namespace CitySim

/-- C8 (confirmed).  A car whose path head equals its destination, with
the destination parking lot unavailable, does nothing during its step:
the entire model state — in particular the car's position, path,
destination and active flag — is unchanged, and no replanning or
re-destination occurs (the recovery code is commented out in the
source). -/
theorem occupied_destination_waits (s : MState) (uid : Nat) (c : Car)
    (p next : Pos) (rest : List Pos)
    (hfind : findCar s uid = some c) (hact : c.active = true)
    (hpos : c.pos = some p) (hpath : c.path = next :: rest)
    (hdest : c.destination = some next)
    (hocc : is_parking_lot_available s next = false) :
    CarAgent.step s uid = s := by
  unfold CarAgent.step
  simp only [hfind, hact, hpos, hpath, hdest, hocc]
  simp
  intro h
  simp [h] at hocc

/-- The waiting scenario: the destination lot at `(1,1)` is occupied by
another car. -/
def c8blocker : Car :=
  { uid := 2, pos := some (1, 1), destination := none
    active := false, path := [] }

/-- C8's model state: `c3car` wants the lot at `(1,1)` which `c8blocker`
occupies. -/
def c8state : MState :=
  { layout := lotLayout33, parking_lot_ids := [((1, 1), 1)]
    cars := [c3car, c8blocker], lights := []
    rngStream := fun _ => 0, rngIdx := 0, nextId := 3 }

/-- Witness for C8 at the concrete occupied-lot scenario. -/
theorem occupied_destination_waits_witness :
    CarAgent.step c8state 1 = c8state :=
  occupied_destination_waits c8state 1 c3car (0, 1) (1, 1) []
    (by decide) (by decide) (by decide) (by decide) (by decide) (by decide)

/-- A car deactivated by destination-pool exhaustion: `c9state` has no
parking lots at all, so `assign_random_destination` deactivates the car
without removing it. -/
def c9car : Car :=
  { uid := 7, pos := some (1, 1), destination := none
    active := true, path := [] }

/-- C9's model state before destination assignment. -/
def c9state : MState := { openState 3 3 with cars := [c9car], nextId := 8 }

/-- C9 counterexample.  After the destination pool comes up empty the car
is permanently deactivated but *not* removed — it is still in the car
collection — yet `get_car_positions` (which filters on `active`, per its
own docstring) returns no entry for it, contradicting the claim that
every non-removed car appears in the snapshot. -/
theorem deactivated_car_absent_from_snapshot :
    (assign_random_destination c9state 7 none).cars =
      [{ c9car with active := false }] ∧
    get_car_positions (assign_random_destination c9state 7 none) = [] := by
  refine ⟨by decide, by decide⟩

/-- C9 (amended).  `get_car_positions` returns one `(id, position)` entry
exactly for the cars in the collection whose `active` flag is true;
non-removed but deactivated cars (destination-pool exhaustion) are
omitted. -/
theorem get_car_positions_iff (s : MState) (uid : Nat) (p : Option Pos) :
    (uid, p) ∈ get_car_positions s ↔
      ∃ c ∈ s.cars, c.uid = uid ∧ c.pos = p ∧ c.active = true := by
  unfold get_car_positions
  simp only [List.mem_map, List.mem_filter]
  constructor
  · rintro ⟨c, ⟨hc, hact⟩, heq⟩
    exact ⟨c, hc, by simpa using congrArg Prod.fst heq,
      by simpa using congrArg Prod.snd heq, hact⟩
  · rintro ⟨c, hc, h1, h2, h3⟩
    exact ⟨c, ⟨hc, h3⟩, by simp [h1, h2]⟩

end CitySim

namespace CitySim

/-- C10 counterexample.  `(1,5)` is not adjacent to `(0,0)` (it is not in
the von Neumann neighbourhood), yet `is_valid_move` accepts the move on
an open grid: the `dx == 1` test classifies it as `'E'` regardless of
`dy`. -/
theorem is_valid_move_accepts_non_neighbor :
    is_valid_move (openState 24 24) (0, 0) (1, 5) = true ∧
    ((1, 5) : Pos) ∉ get_neighborhood (openLayout 24 24) (0, 0) ∧
    heuristic (0, 0) (1, 5) ≠ 1 := by
  refine ⟨by decide, by decide, by decide⟩

/-- C10 (amended).  `is_valid_move` returns `False` whenever the
displacement matches none of the four classifier tests (`dx = 1`,
`dx = -1`, `dy = 1`, `dy = -1`) — in particular when `to_pos = from_pos`
— and a target cell containing any `CarAgent` (the moving car itself
included) is always rejected.  Targets with e.g. `dx = 1` and arbitrary
`dy` can however be accepted, so the False-guarantee cannot extend to
all non-neighbours. -/
theorem is_valid_move_rejections (s : MState) (p q : Pos) :
    ((q.1 - p.1 ≠ 1 ∧ q.1 - p.1 ≠ -1 ∧ q.2 - p.2 ≠ 1 ∧ q.2 - p.2 ≠ -1) →
      is_valid_move s p q = false) ∧
    ((∃ c ∈ s.cars, c.pos = some q) → is_valid_move s p q = false) := by
  constructor
  · rintro ⟨h1, h2, h3, h4⟩
    have hmd : movement_direction p q = none := by
      unfold movement_direction
      simp [h1, h2, h3, h4]
    unfold is_valid_move
    rw [hmd]
    simp
  · rintro ⟨c, hc, hpos⟩
    have hany : (s.cars.any fun c' => decide (c'.pos = some q)) = true :=
      List.any_eq_true.mpr ⟨c, hc, by simp [hpos]⟩
    unfold is_valid_move
    rw [hany]
    simp

/-- Witness for C10's amended theorem: the zero move `(1,1) → (1,1)` is
rejected, and a move onto an occupied cell is rejected. -/
theorem is_valid_move_rejections_witness :
    is_valid_move c1state (1, 1) (1, 1) = false ∧
    is_valid_move c1state (1, 1) (0, 0) = false :=
  ⟨(is_valid_move_rejections c1state (1, 1) (1, 1)).1
      (by refine ⟨by decide, by decide, by decide, by decide⟩),
   (is_valid_move_rejections c1state (1, 1) (0, 0)).2
      ⟨c1car, by decide, by decide⟩⟩

/-- C6 (confirmed).  The embedded simulation is a function of the model
state (the RNG is a seed-determined stream inside the state, the agent
collections are iteration-ordered lists, and the A* frontier selection
`minByF` is the first minimum in the fixed open-set order), so two runs
from equal states — same seed, same iteration order — produce identical
position snapshots at every tick. -/
theorem run_deterministic (s1 s2 : MState) (h : s1 = s2) (n : Nat) :
    traceN s1 n = traceN s2 n := by rw [h]

/-- Witness for C6 at a concrete two-car state and three ticks. -/
theorem run_deterministic_witness :
    traceN c8state 3 = traceN c8state 3 :=
  run_deterministic c8state c8state rfl 3

end CitySim

namespace CitySim

/-! ## The mutual-exclusion / no-grid-lights invariant (claims C4, C7) -/

/-- Number of cars occupying cell `p` (the `MultiGrid` cell content
restricted to `CarAgent`s). -/
def countCarsAt (s : MState) (p : Pos) : Nat :=
  s.cars.countP fun c => decide (c.pos = some p)

/-- mesa assigns distinct `unique_id`s. -/
def nodupUids (s : MState) : Prop := (s.cars.map Car.uid).Nodup

/-- `create_traffic_lights` never calls `grid.place_agent`, so no traffic
light ever occupies a grid cell. -/
def noGridLights (s : MState) : Prop := ∀ l ∈ s.lights, l.pos = none

/-- The inductive state invariant: distinct car ids, at most one car per
cell, no light on the grid. -/
def Inv (s : MState) : Prop :=
  nodupUids s ∧ (∀ p, countCarsAt s p ≤ 1) ∧ noGridLights s

/-- States produced by `CityModel.__init__`: `create_cars` places each
car on its own cell (parking lots are chosen without replacement, road
fallback cells only when empty), mesa hands out fresh ids, and traffic
lights are never placed on the grid. -/
def WFInit (s : MState) : Prop := Inv s

/-- The states reachable from a well-formed initial state by whole
ticks. -/
inductive Reachable : MState → Prop
  | init (s : MState) (h : WFInit s) : Reachable s
  | step (s : MState) (h : Reachable s) : Reachable (CityModel.step s)

/-- With distinct ids, at most one list entry matches a given id. -/
theorem countP_uid_le_one (l : List Car) (h : (l.map Car.uid).Nodup)
    (uid : Nat) : l.countP (fun c => decide (c.uid = uid)) ≤ 1 := by
  induction l with
  | nil => simp
  | cons c t ih =>
    rw [List.map_cons, List.nodup_cons] at h
    obtain ⟨hc, ht⟩ := h
    rw [List.countP_cons]
    by_cases hcu : c.uid = uid
    · have h0 : t.countP (fun c' => decide (c'.uid = uid)) = 0 := by
        apply List.countP_eq_zero.mpr
        intro x hx
        simp only [decide_eq_true_eq]
        intro hxuid
        exact hc (by rw [hcu, ← hxuid]; exact List.mem_map_of_mem Car.uid hx)
      simp [hcu, h0]
    · have hd : (decide (c.uid = uid)) = false := by simp [hcu]
      rw [hd]
      simpa using ih ht

/-- A map touching neither positions nor ids preserves the invariant. -/
theorem Inv_map (s : MState) (f : Car → Car)
    (hpos : ∀ c, (f c).pos = c.pos) (huid : ∀ c, (f c).uid = c.uid)
    (h : Inv s) : Inv { s with cars := s.cars.map f } := by
  obtain ⟨h1, h2, h3⟩ := h
  refine ⟨?_, fun p => ?_, h3⟩
  · unfold nodupUids
    rw [List.map_map]
    have : s.cars.map (Car.uid ∘ f) = s.cars.map Car.uid :=
      List.map_congr_left fun c _ => huid c
    rw [this]; exact h1
  · unfold countCarsAt
    rw [List.countP_map]
    have : s.cars.countP ((fun c => decide (c.pos = some p)) ∘ f)
        = s.cars.countP (fun c => decide (c.pos = some p)) := by
      apply List.countP_congr
      intro c _
      simp [Function.comp, hpos c]
    rw [this]; exact h2 p

/-- A state whose cars are a filtration of an invariant state's cars (and
whose lights agree) is invariant. -/
theorem Inv_cars_filter (s s' : MState) (f : Car → Bool)
    (hc : s'.cars = s.cars.filter f) (hl : s'.lights = s.lights)
    (h : Inv s) : Inv s' := by
  obtain ⟨h1, h2, h3⟩ := h
  refine ⟨?_, fun p => ?_, ?_⟩
  · unfold nodupUids
    rw [hc]
    exact h1.sublist ((s.cars.filter_sublist).map Car.uid)
  · unfold countCarsAt
    rw [hc]
    exact le_trans ((s.cars.filter_sublist (p := f)).countP_le _) (h2 p)
  · unfold noGridLights
    rw [hl]; exact h3

/-- Moving one car onto an empty cell preserves the invariant. -/
theorem Inv_moveCar (s : MState) (uid : Nat) (q : Pos)
    (h : Inv s) (h0 : countCarsAt s q = 0) : Inv (moveCar s uid q) := by
  obtain ⟨h1, h2, h3⟩ := h
  have hempty : ∀ c ∈ s.cars, ¬ (c.pos = some q) := by
    intro c hc hcq
    have := List.countP_eq_zero.mp h0 c hc
    simp [hcq] at this
  refine ⟨?_, fun p => ?_, h3⟩
  · unfold nodupUids moveCar
    rw [List.map_map]
    have : s.cars.map (Car.uid ∘ fun c =>
        if c.uid = uid then { c with pos := some q } else c) = s.cars.map Car.uid := by
      apply List.map_congr_left
      intro c _
      by_cases hcu : c.uid = uid <;> simp [Function.comp, hcu]
    rw [this]; exact h1
  · unfold countCarsAt moveCar
    rw [List.countP_map]
    by_cases hpq : p = q
    · subst hpq
      calc s.cars.countP ((fun c => decide (c.pos = some p)) ∘ fun c =>
              if c.uid = uid then { c with pos := some p } else c)
          ≤ s.cars.countP (fun c => decide (c.uid = uid)) := by
            apply List.countP_mono_left
            intro c hc
            simp only [Function.comp, decide_eq_true_eq]
            by_cases hcu : c.uid = uid
            · simp [hcu]
            · simp only [hcu, if_false]
              intro hcp
              exact absurd hcp (hempty c hc)
        _ ≤ 1 := countP_uid_le_one s.cars h1 uid
    · calc s.cars.countP ((fun c => decide (c.pos = some p)) ∘ fun c =>
              if c.uid = uid then { c with pos := some q } else c)
          ≤ s.cars.countP (fun c => decide (c.pos = some p)) := by
            apply List.countP_mono_left
            intro c hc
            simp only [Function.comp, decide_eq_true_eq]
            by_cases hcu : c.uid = uid
            · simp only [hcu, if_true]
              intro hcp
              exact absurd (Option.some_inj.mp hcp) (Ne.symm hpq)
            · simp [hcu]
        _ ≤ 1 := h2 p

end CitySim

namespace CitySim

/-- A move accepted by `is_valid_move` targets a car-free cell (the
occupancy scan is the second check). -/
theorem is_valid_move_no_car (s : MState) (p q : Pos)
    (h : is_valid_move s p q = true) : countCarsAt s q = 0 := by
  unfold is_valid_move at h
  split at h
  · cases h
  split at h
  · cases h
  · rename_i hany
    apply List.countP_eq_zero.mpr
    intro c hc
    intro hcq
    exact hany (List.any_eq_true.mpr ⟨c, hc, hcq⟩)

/-- An available parking lot holds no car. -/
theorem available_no_car (s : MState) (q : Pos)
    (h : is_parking_lot_available s q = true) : countCarsAt s q = 0 := by
  unfold is_parking_lot_available at h
  split at h
  · cases h
  · apply List.countP_eq_zero.mpr
    intro c hc hcq
    simp only [Bool.not_eq_true'] at h
    have := List.any_eq_false.mp h c hc
    simp [hcq] at this

/-- `random.choice` picks an element of the (nonempty) list. -/
theorem randChoice_cons_mem (s : MState) (q : Pos) (qs : List Pos) :
    randChoice s (q :: qs) q ∈ q :: qs := by
  unfold randChoice
  by_cases hlt : s.rngStream s.rngIdx % (q :: qs).length < (q :: qs).length
  · rw [List.getD_eq_getElem _ _ hlt]
    exact List.getElem_mem hlt
  · rw [List.getD_eq_default _ _ (le_of_not_lt hlt)]
    exact List.mem_cons_self q qs

/-- A member of `get_valid_neighbors` passes `is_valid_move`. -/
theorem mem_valid_neighbors (s : MState) (p q : Pos)
    (h : q ∈ get_valid_neighbors s p) : is_valid_move s p q = true :=
  (List.mem_filter.mp h).2

/-- `CarAgent.step` preserves the invariant: every committed move targets
a cell checked car-free at commit time, removal and bookkeeping only
shrink or relabel, and lights are untouched. -/
theorem Inv_carStep (s : MState) (uid : Nat) (h : Inv s) :
    Inv (CarAgent.step s uid) := by
  have hsetInv : ∀ (s' : MState) (X : List Pos), Inv s' → Inv (setCarPath s' uid X) :=
    fun s' X h' =>
      Inv_map s' _ (fun c' => by by_cases hcu : c'.uid = uid <;> simp [hcu])
        (fun c' => by by_cases hcu : c'.uid = uid <;> simp [hcu]) h'
  have hfollow : ∀ (s1 : MState) (dest : Option Pos) (p next : Pos), Inv s1 →
      Inv (if dest = some next then
            (if is_parking_lot_available s1 next = true then
              removeCar (deactivateCar (popCarPath (moveCar s1 uid next) uid) uid) uid
            else s1)
          else if is_valid_move s1 p next = true then
            popCarPath (moveCar s1 uid next) uid
          else setCarPath s1 uid (calcPath s1 p dest)) := by
    intro s1 dest p next h1
    by_cases hdest : dest = some next
    · rw [if_pos hdest]
      by_cases hav : is_parking_lot_available s1 next = true
      · rw [if_pos hav]
        exact Inv_cars_filter s1 _ _ (arrival_cars_eq s1 uid next) rfl h1
      · rw [if_neg hav]; exact h1
    · rw [if_neg hdest]
      by_cases hvm : is_valid_move s1 p next = true
      · rw [if_pos hvm]
        refine Inv_map (moveCar s1 uid next) _
          (fun c' => by by_cases hcu : c'.uid = uid <;> simp [hcu])
          (fun c' => by by_cases hcu : c'.uid = uid <;> simp [hcu]) ?_
        exact Inv_moveCar s1 uid next h1 (is_valid_move_no_car s1 p next hvm)
      · rw [if_neg hvm]
        exact hsetInv s1 _ h1
  unfold CarAgent.step
  rcases hfind : findCar s uid with _ | c
  · exact h
  dsimp only
  by_cases hact : c.active = false
  · rw [if_pos hact]; exact h
  rw [if_neg hact]
  rcases hpos : c.pos with _ | p
  · exact h
  dsimp only
  by_cases hemp : c.path.isEmpty
  · simp only [hemp, if_true]
    rcases hcp : calcPath s p c.destination with _ | ⟨next, rest⟩
    · dsimp only
      rcases hvn : get_valid_neighbors (setCarPath s uid []) p with _ | ⟨q, qs⟩
      · exact hsetInv s [] h
      · dsimp only
        apply Inv_moveCar
        · exact hsetInv s [] h
        · have hv : is_valid_move (setCarPath s uid []) p
              (randChoice (setCarPath s uid []) (q :: qs) q) = true := by
            apply mem_valid_neighbors
            rw [hvn]
            exact randChoice_cons_mem _ q qs
          exact is_valid_move_no_car _ _ _ hv
    · dsimp only
      exact hfollow (setCarPath s uid (next :: rest)) c.destination p next
        (hsetInv s (next :: rest) h)
  · simp only [hemp, if_false]
    rcases hpath : c.path with _ | ⟨next, rest⟩
    · rw [hpath] at hemp; simp at hemp
    · exact hfollow s c.destination p next h

end CitySim

namespace CitySim

/-- Folding car steps preserves the invariant. -/
theorem Inv_foldl : ∀ (l : List Nat) (s : MState), Inv s →
    Inv (l.foldl CarAgent.step s)
  | [], _, h => h
  | uid :: t, s, h => Inv_foldl t (CarAgent.step s uid) (Inv_carStep s uid h)

/-- A traffic light's step never touches its grid position. -/
theorem lightStep_pos (l : TrafficLight) :
    (TrafficLightAgent.step l).pos = l.pos := by
  by_cases hc : durationOf l.durations l.state ≤ l.timer + 1
  · simp [TrafficLightAgent.step, hc]
  · simp [TrafficLightAgent.step, hc]

/-- One whole tick preserves the invariant. -/
theorem Inv_step (s : MState) (h : Inv s) : Inv (CityModel.step s) := by
  unfold CityModel.step stepCars
  apply Inv_foldl
  obtain ⟨h1, h2, h3⟩ := h
  refine ⟨h1, h2, ?_⟩
  intro l hl
  rcases List.mem_map.mp hl with ⟨l0, hl0, rfl⟩
  rw [lightStep_pos]
  exact h3 l0 hl0

/-- Every reachable state satisfies the invariant. -/
theorem Inv_reachable (s : MState) (h : Reachable s) : Inv s := by
  induction h with
  | init s h => exact h
  | step s _ ih => exact Inv_step s ih

/-- C4 (confirmed).  In every reachable model state at the end of any
tick, no cell holds more than one `CarAgent`: every committed move —
path-following, arrival into a lot, or the random fallback — first
checks the target cell car-free against the live occupancy
(`is_valid_move` / `is_parking_lot_available`), cars step sequentially,
and removal only shrinks the collection. -/
theorem at_most_one_car_per_cell (s : MState) (h : Reachable s) (p : Pos) :
    countCarsAt s p ≤ 1 :=
  (Inv_reachable s h).2.1 p

/-- The initial one-car state is well formed. -/
theorem c1state_WFInit : WFInit c1state := by
  refine ⟨?_, fun p => ?_, ?_⟩
  · unfold nodupUids
    decide
  · exact le_trans (List.countP_le_length _) (by decide)
  · unfold noGridLights
    decide

/-- Witness for C4 at the concrete one-car reachable state after one
tick. -/
theorem at_most_one_car_per_cell_witness :
    countCarsAt (CityModel.step c1state) ((0 : Int), (1 : Int)) ≤ 1 :=
  at_most_one_car_per_cell (CityModel.step c1state)
    (Reachable.step c1state (Reachable.init c1state c1state_WFInit)) (0, 1)

/-- Is there a red light in cell `q`?  (The scan `is_valid_move` performs
over the cell contents.) -/
def redLightAt (s : MState) (q : Pos) : Bool :=
  s.lights.any fun l => decide (l.pos = some q) && decide (l.state = TLState.Red)

/-- C7 (confirmed).  In every reachable state no grid cell holds a
`TrafficLightAgent` at all (`create_traffic_lights` never places lights
on the grid), so no car ever commits a move into a cell currently
holding a red light; moreover, mechanically, any move `is_valid_move`
accepts targets a cell with no red light, and removing every non-red
light from a state never changes `is_valid_move` — `Green` and `Yellow`
never block entry. -/
theorem red_light_compliance (s : MState) (h : Reachable s) :
    (∀ q, redLightAt s q = false) ∧
    (∀ (s' : MState) (p q : Pos), is_valid_move s' p q = true →
      redLightAt s' q = false) ∧
    (∀ (s' : MState) (p q : Pos), is_valid_move s' p q =
      is_valid_move
        { s' with lights := s'.lights.filter fun l => decide (l.state = TLState.Red) }
        p q) := by
  refine ⟨?_, ?_, ?_⟩
  · intro q
    apply List.any_eq_false.mpr
    intro l hl
    have := (Inv_reachable s h).2.2 l hl
    simp [this]
  · intro s' p q hv
    unfold is_valid_move at hv
    split at hv
    · cases hv
    split at hv
    · cases hv
    split at hv
    · cases hv
    split at hv
    · cases hv
    · rename_i hred
      unfold redLightAt
      exact Bool.not_eq_true _ ▸ (Bool.eq_false_iff.mpr hred)
  · intro s' p q
    have hany : ((s'.lights.filter fun l => decide (l.state = TLState.Red)).any
          fun l => decide (l.pos = some q) && decide (l.state = TLState.Red))
        = (s'.lights.any fun l => decide (l.pos = some q) &&
            decide (l.state = TLState.Red)) := by
      induction s'.lights with
      | nil => rfl
      | cons l t ih =>
        by_cases hr : l.state = TLState.Red
        · simp [List.filter_cons, hr, List.any_cons, ih]
        · simp [List.filter_cons, hr, List.any_cons, ih]
    unfold is_valid_move is_building
    dsimp only
    rw [hany]

/-- Witness for C7 at the concrete one-car reachable state. -/
theorem red_light_compliance_witness :
    redLightAt c1state ((1 : Int), (1 : Int)) = false :=
  (red_light_compliance c1state (Reachable.init c1state c1state_WFInit)).1 (1, 1)

end CitySim

namespace CitySim

/-- The building cell groups of `CityModel.setup_buildings`. -/
def buildings_positions : List (List Pos) := [
  [
    (2, 2), (2, 3), (2, 4), (2, 5), (2, 6), (2, 7),
    (2, 8), (2, 10), (2, 11), (3, 3), (3, 4), (3, 5),
    (3, 6), (3, 7), (3, 8), (3, 9), (3, 10), (3, 11),
    (4, 2), (4, 3), (4, 4), (4, 5), (4, 6), (4, 7),
    (4, 8), (4, 9), (4, 10), (5, 2), (5, 3), (5, 4),
    (5, 5), (5, 7), (5, 8), (5, 9), (5, 10), (5, 11)
  ],
  [
    (8, 2), (8, 3), (8, 4), (9, 2), (9, 3), (9, 4),
    (10, 2), (10, 3), (11, 2), (11, 3), (11, 4)
  ],
  [
    (8, 7), (8, 9), (8, 10), (8, 11), (9, 7), (9, 8),
    (9, 9), (9, 10), (9, 11), (10, 7), (10, 8), (10, 9),
    (10, 10), (11, 7), (11, 8), (11, 9), (11, 10), (11, 11)
  ],
  [
    (16, 2), (16, 3), (16, 4), (16, 5), (17, 3), (17, 4),
    (17, 5), (18, 2), (18, 3), (18, 4), (18, 5), (19, 2),
    (19, 3), (19, 4), (19, 5), (20, 2), (20, 3), (20, 4),
    (21, 2), (21, 3), (21, 4), (21, 5)
  ],
  [
    (16, 8), (17, 8), (18, 8), (19, 8), (21, 8), (16, 9),
    (16, 10), (16, 11), (17, 9), (17, 10), (17, 11), (18, 9),
    (18, 10), (18, 11), (19, 9), (19, 10), (19, 11), (20, 9),
    (20, 10), (20, 11), (21, 9), (21, 10), (21, 11)
  ],
  [
    (16, 16), (16, 17), (16, 18), (16, 19), (16, 20), (16, 21),
    (17, 16), (17, 18), (17, 20), (17, 21)
  ],
  [
    (20, 16), (20, 17), (20, 18), (20, 20), (20, 21), (21, 16),
    (21, 17), (21, 18), (21, 19), (21, 20), (21, 21)
  ],
  [
    (8, 16), (8, 17), (9, 16), (9, 17), (10, 17), (11, 16),
    (11, 17)
  ],
  [
    (8, 20), (8, 21), (9, 20), (10, 20), (10, 21), (11, 20),
    (11, 21)
  ],
  [
    (2, 16), (2, 17), (3, 16), (4, 16), (4, 17), (5, 16),
    (5, 17)
  ],
  [
    (2, 20), (2, 21), (3, 20), (3, 21), (4, 21), (5, 20),
    (5, 21)
  ]
]

/-- The ordered parking-lot cells of `CityModel.setup_parking_lots`
(ids are assigned 1.. by list order). -/
def parking_lot_positions : List Pos := [
  (2, 9), (3, 2), (3, 17), (4, 11), (4, 20), (5, 6),
  (8, 8), (9, 21), (10, 4), (10, 11), (10, 16), (17, 2),
  (17, 17), (17, 19), (20, 5), (20, 8), (20, 19)]

/-- The `custom_road_directions` dict literal of
`CityModel.setup_road_directions`, in source order; later duplicate keys
override earlier ones, as in a Python dict literal. -/
def custom_road_directions : List (Pos × List Dir) := [
  ((0, 0), [Dir.N, Dir.E]),
  ((0, 1), [Dir.N, Dir.E]),
  ((0, 2), [Dir.N, Dir.E]),
  ((0, 3), [Dir.N, Dir.E]),
  ((0, 4), [Dir.N, Dir.E]),
  ((0, 5), [Dir.N, Dir.E]),
  ((0, 6), [Dir.N, Dir.E]),
  ((0, 7), [Dir.N, Dir.E]),
  ((0, 8), [Dir.N, Dir.E]),
  ((0, 9), [Dir.N, Dir.E]),
  ((0, 10), [Dir.N, Dir.E]),
  ((0, 11), [Dir.N, Dir.E]),
  ((0, 12), [Dir.N, Dir.E]),
  ((0, 13), [Dir.N, Dir.E]),
  ((0, 14), [Dir.N, Dir.E]),
  ((0, 15), [Dir.N, Dir.E]),
  ((0, 16), [Dir.N, Dir.E]),
  ((0, 17), [Dir.N, Dir.E]),
  ((0, 18), [Dir.N, Dir.E]),
  ((0, 19), [Dir.N, Dir.E]),
  ((0, 20), [Dir.N, Dir.E]),
  ((0, 21), [Dir.N, Dir.E]),
  ((0, 22), [Dir.N, Dir.E]),
  ((0, 23), [Dir.N, Dir.E]),
  ((12, 2), [Dir.N, Dir.E]),
  ((12, 3), [Dir.N, Dir.E]),
  ((12, 4), [Dir.N, Dir.E]),
  ((12, 7), [Dir.N, Dir.E]),
  ((12, 8), [Dir.N, Dir.E]),
  ((12, 9), [Dir.N, Dir.E]),
  ((12, 10), [Dir.N, Dir.E]),
  ((12, 11), [Dir.N, Dir.E]),
  ((12, 14), [Dir.N, Dir.E]),
  ((12, 15), [Dir.N, Dir.E]),
  ((12, 16), [Dir.N, Dir.E]),
  ((12, 17), [Dir.N, Dir.E]),
  ((12, 18), [Dir.N, Dir.E]),
  ((12, 19), [Dir.N, Dir.E]),
  ((12, 20), [Dir.N, Dir.E]),
  ((12, 21), [Dir.N, Dir.E]),
  ((6, 16), [Dir.N, Dir.E]),
  ((6, 17), [Dir.N, Dir.E]),
  ((6, 20), [Dir.N, Dir.E]),
  ((6, 21), [Dir.N, Dir.E]),
  ((1, 14), [Dir.N, Dir.E]),
  ((1, 15), [Dir.N, Dir.E]),
  ((2, 14), [Dir.N, Dir.E]),
  ((3, 14), [Dir.N, Dir.E]),
  ((4, 14), [Dir.N, Dir.E]),
  ((5, 14), [Dir.N, Dir.E]),
  ((6, 14), [Dir.N, Dir.E]),
  ((7, 14), [Dir.N, Dir.E]),
  ((8, 14), [Dir.N, Dir.E]),
  ((9, 14), [Dir.N, Dir.E]),
  ((10, 14), [Dir.N, Dir.E]),
  ((11, 14), [Dir.N, Dir.E]),
  ((12, 14), [Dir.N, Dir.E]),
  ((6, 15), [Dir.N, Dir.E]),
  ((7, 15), [Dir.N, Dir.E]),
  ((1, 22), [Dir.N, Dir.E]),
  ((2, 22), [Dir.N, Dir.E]),
  ((3, 22), [Dir.N, Dir.E]),
  ((4, 22), [Dir.N, Dir.E]),
  ((5, 22), [Dir.N, Dir.E]),
  ((6, 22), [Dir.N, Dir.E]),
  ((7, 22), [Dir.N, Dir.E]),
  ((8, 22), [Dir.N, Dir.E]),
  ((9, 22), [Dir.N, Dir.E]),
  ((10, 22), [Dir.N, Dir.E]),
  ((11, 22), [Dir.N, Dir.E]),
  ((12, 22), [Dir.N, Dir.E]),
  ((13, 22), [Dir.N, Dir.E]),
  ((16, 22), [Dir.N, Dir.E]),
  ((17, 22), [Dir.N, Dir.E]),
  ((20, 22), [Dir.N, Dir.E]),
  ((21, 22), [Dir.N, Dir.E]),
  ((8, 18), [Dir.N, Dir.E]),
  ((9, 18), [Dir.N, Dir.E]),
  ((10, 18), [Dir.N, Dir.E]),
  ((11, 18), [Dir.N, Dir.E]),
  ((16, 14), [Dir.N, Dir.E]),
  ((17, 14), [Dir.N, Dir.E]),
  ((18, 14), [Dir.N, Dir.E]),
  ((19, 14), [Dir.N, Dir.E]),
  ((20, 14), [Dir.N, Dir.E]),
  ((21, 14), [Dir.N, Dir.E]),
  ((12, 14), [Dir.N, Dir.E]),
  ((13, 14), [Dir.N, Dir.E]),
  ((12, 15), [Dir.N, Dir.E]),
  ((13, 15), [Dir.N, Dir.E]),
  ((1, 0), [Dir.N, Dir.W]),
  ((1, 1), [Dir.N, Dir.W]),
  ((1, 2), [Dir.N, Dir.W]),
  ((1, 3), [Dir.N, Dir.W]),
  ((1, 4), [Dir.N, Dir.W]),
  ((1, 5), [Dir.N, Dir.W]),
  ((1, 6), [Dir.N, Dir.W]),
  ((1, 7), [Dir.N, Dir.W]),
  ((1, 8), [Dir.N, Dir.W]),
  ((1, 9), [Dir.N, Dir.W]),
  ((1, 10), [Dir.N, Dir.W]),
  ((1, 11), [Dir.N, Dir.W]),
  ((1, 12), [Dir.N, Dir.W]),
  ((1, 13), [Dir.N, Dir.W]),
  ((1, 16), [Dir.N, Dir.W]),
  ((7, 16), [Dir.N, Dir.W]),
  ((7, 17), [Dir.N, Dir.W]),
  ((7, 20), [Dir.N, Dir.W]),
  ((7, 21), [Dir.N, Dir.W]),
  ((13, 2), [Dir.N, Dir.W]),
  ((13, 3), [Dir.N, Dir.W]),
  ((13, 4), [Dir.N, Dir.W]),
  ((13, 5), [Dir.N, Dir.W]),
  ((13, 6), [Dir.N, Dir.W]),
  ((13, 7), [Dir.N, Dir.W]),
  ((13, 8), [Dir.N, Dir.W]),
  ((13, 9), [Dir.N, Dir.W]),
  ((13, 10), [Dir.N, Dir.W]),
  ((13, 11), [Dir.N, Dir.W]),
  ((13, 12), [Dir.N, Dir.W]),
  ((13, 13), [Dir.N, Dir.W]),
  ((13, 16), [Dir.N, Dir.W]),
  ((13, 17), [Dir.N, Dir.W]),
  ((13, 18), [Dir.N, Dir.W]),
  ((13, 19), [Dir.N, Dir.W]),
  ((13, 20), [Dir.N, Dir.W]),
  ((13, 21), [Dir.N, Dir.W]),
  ((2, 0), [Dir.N, Dir.W]),
  ((3, 0), [Dir.N, Dir.W]),
  ((4, 0), [Dir.N, Dir.W]),
  ((5, 0), [Dir.N, Dir.W]),
  ((6, 0), [Dir.N, Dir.W]),
  ((7, 0), [Dir.N, Dir.W]),
  ((8, 0), [Dir.N, Dir.W]),
  ((9, 0), [Dir.N, Dir.W]),
  ((10, 0), [Dir.N, Dir.W]),
  ((11, 0), [Dir.N, Dir.W]),
  ((12, 0), [Dir.N, Dir.W]),
  ((13, 0), [Dir.N, Dir.W]),
  ((14, 0), [Dir.N, Dir.W]),
  ((15, 0), [Dir.N, Dir.W]),
  ((16, 0), [Dir.N, Dir.W]),
  ((17, 0), [Dir.N, Dir.W]),
  ((18, 0), [Dir.N, Dir.W]),
  ((19, 0), [Dir.N, Dir.W]),
  ((20, 0), [Dir.N, Dir.W]),
  ((21, 0), [Dir.N, Dir.W]),
  ((12, 1), [Dir.N, Dir.W]),
  ((13, 1), [Dir.N, Dir.W]),
  ((12, 12), [Dir.N, Dir.W]),
  ((12, 13), [Dir.N, Dir.W]),
  ((1, 18), [Dir.N, Dir.W]),
  ((2, 18), [Dir.N, Dir.W]),
  ((3, 18), [Dir.N, Dir.W]),
  ((4, 18), [Dir.N, Dir.W]),
  ((5, 18), [Dir.N, Dir.W]),
  ((1, 19), [Dir.N, Dir.W]),
  ((1, 20), [Dir.N, Dir.W]),
  ((1, 21), [Dir.N, Dir.W]),
  ((8, 5), [Dir.N, Dir.W]),
  ((9, 5), [Dir.N, Dir.W]),
  ((10, 5), [Dir.N, Dir.W]),
  ((11, 5), [Dir.N, Dir.W]),
  ((16, 6), [Dir.N, Dir.W]),
  ((17, 6), [Dir.N, Dir.W]),
  ((18, 6), [Dir.N, Dir.W]),
  ((19, 6), [Dir.N, Dir.W]),
  ((20, 6), [Dir.N, Dir.W]),
  ((21, 6), [Dir.N, Dir.W]),
  ((16, 12), [Dir.N, Dir.W]),
  ((17, 12), [Dir.N, Dir.W]),
  ((18, 12), [Dir.N, Dir.W]),
  ((19, 12), [Dir.N, Dir.W]),
  ((20, 12), [Dir.N, Dir.W]),
  ((21, 12), [Dir.N, Dir.W]),
  ((2, 12), [Dir.N, Dir.W]),
  ((3, 12), [Dir.N, Dir.W]),
  ((4, 12), [Dir.N, Dir.W]),
  ((5, 12), [Dir.N, Dir.W]),
  ((8, 12), [Dir.N, Dir.W]),
  ((9, 12), [Dir.N, Dir.W]),
  ((10, 12), [Dir.N, Dir.W]),
  ((11, 12), [Dir.N, Dir.W]),
  ((22, 0), [Dir.N, Dir.W]),
  ((23, 0), [Dir.N, Dir.W]),
  ((2, 1), [Dir.S, Dir.W]),
  ((3, 1), [Dir.S, Dir.W]),
  ((4, 1), [Dir.S, Dir.W]),
  ((5, 1), [Dir.S, Dir.W]),
  ((6, 1), [Dir.S, Dir.W]),
  ((7, 1), [Dir.S, Dir.W]),
  ((8, 1), [Dir.S, Dir.W]),
  ((9, 1), [Dir.S, Dir.W]),
  ((10, 1), [Dir.S, Dir.W]),
  ((11, 1), [Dir.S, Dir.W]),
  ((14, 1), [Dir.S, Dir.W]),
  ((15, 1), [Dir.S, Dir.W]),
  ((16, 1), [Dir.S, Dir.W]),
  ((17, 1), [Dir.S, Dir.W]),
  ((18, 1), [Dir.S, Dir.W]),
  ((19, 1), [Dir.S, Dir.W]),
  ((20, 1), [Dir.S, Dir.W]),
  ((21, 1), [Dir.S, Dir.W]),
  ((22, 1), [Dir.S, Dir.W]),
  ((23, 1), [Dir.S, Dir.W]),
  ((23, 2), [Dir.S, Dir.W]),
  ((23, 3), [Dir.S, Dir.W]),
  ((23, 4), [Dir.S, Dir.W]),
  ((23, 5), [Dir.S, Dir.W]),
  ((23, 6), [Dir.S, Dir.W]),
  ((23, 7), [Dir.S, Dir.W]),
  ((23, 8), [Dir.S, Dir.W]),
  ((23, 9), [Dir.S, Dir.W]),
  ((23, 10), [Dir.S, Dir.W]),
  ((23, 11), [Dir.S, Dir.W]),
  ((23, 12), [Dir.S, Dir.W]),
  ((23, 13), [Dir.S, Dir.W]),
  ((23, 14), [Dir.S, Dir.W]),
  ((23, 15), [Dir.S, Dir.W]),
  ((23, 16), [Dir.S, Dir.W]),
  ((23, 17), [Dir.S, Dir.W]),
  ((23, 18), [Dir.S, Dir.W]),
  ((23, 19), [Dir.S, Dir.W]),
  ((23, 20), [Dir.S, Dir.W]),
  ((23, 21), [Dir.S, Dir.W]),
  ((7, 2), [Dir.S, Dir.W]),
  ((7, 3), [Dir.S, Dir.W]),
  ((7, 4), [Dir.S, Dir.W]),
  ((7, 5), [Dir.S, Dir.W]),
  ((7, 6), [Dir.S, Dir.W]),
  ((7, 7), [Dir.S, Dir.W]),
  ((7, 8), [Dir.S, Dir.W]),
  ((7, 9), [Dir.S, Dir.W]),
  ((7, 10), [Dir.S, Dir.W]),
  ((7, 11), [Dir.S, Dir.W]),
  ((1, 13), [Dir.S, Dir.W]),
  ((2, 13), [Dir.S, Dir.W]),
  ((3, 13), [Dir.S, Dir.W]),
  ((4, 13), [Dir.S, Dir.W]),
  ((5, 13), [Dir.S, Dir.W]),
  ((6, 13), [Dir.S, Dir.W]),
  ((7, 13), [Dir.S, Dir.W]),
  ((8, 13), [Dir.S, Dir.W]),
  ((9, 13), [Dir.S, Dir.W]),
  ((10, 13), [Dir.S, Dir.W]),
  ((11, 13), [Dir.S, Dir.W]),
  ((3, 19), [Dir.S, Dir.W]),
  ((4, 19), [Dir.S, Dir.W]),
  ((5, 19), [Dir.S, Dir.W]),
  ((15, 2), [Dir.S, Dir.W]),
  ((15, 3), [Dir.S, Dir.W]),
  ((15, 4), [Dir.S, Dir.W]),
  ((15, 5), [Dir.S, Dir.W]),
  ((15, 6), [Dir.S, Dir.W]),
  ((15, 7), [Dir.S, Dir.W]),
  ((15, 8), [Dir.S, Dir.W]),
  ((15, 9), [Dir.S, Dir.W]),
  ((15, 10), [Dir.S, Dir.W]),
  ((15, 11), [Dir.S, Dir.W]),
  ((15, 12), [Dir.S, Dir.W]),
  ((15, 13), [Dir.S, Dir.W]),
  ((16, 13), [Dir.S, Dir.W]),
  ((17, 13), [Dir.S, Dir.W]),
  ((18, 13), [Dir.S, Dir.W]),
  ((19, 13), [Dir.S, Dir.W]),
  ((20, 13), [Dir.S, Dir.W]),
  ((21, 13), [Dir.S, Dir.W]),
  ((15, 16), [Dir.S, Dir.W]),
  ((15, 17), [Dir.S, Dir.W]),
  ((15, 18), [Dir.S, Dir.W]),
  ((15, 19), [Dir.S, Dir.W]),
  ((15, 20), [Dir.S, Dir.W]),
  ((15, 21), [Dir.S, Dir.W]),
  ((19, 16), [Dir.S, Dir.W]),
  ((19, 17), [Dir.S, Dir.W]),
  ((19, 18), [Dir.S, Dir.W]),
  ((19, 19), [Dir.S, Dir.W]),
  ((19, 20), [Dir.S, Dir.W]),
  ((19, 21), [Dir.S, Dir.W]),
  ((16, 7), [Dir.S, Dir.W]),
  ((17, 7), [Dir.S, Dir.W]),
  ((18, 7), [Dir.S, Dir.W]),
  ((19, 7), [Dir.S, Dir.W]),
  ((20, 7), [Dir.S, Dir.W]),
  ((21, 7), [Dir.S, Dir.W]),
  ((8, 6), [Dir.S, Dir.W]),
  ((9, 6), [Dir.S, Dir.W]),
  ((10, 6), [Dir.S, Dir.W]),
  ((11, 6), [Dir.S, Dir.W]),
  ((14, 12), [Dir.S, Dir.W]),
  ((14, 13), [Dir.S, Dir.W]),
  ((23, 23), [Dir.S, Dir.W]),
  ((23, 22), [Dir.S, Dir.W]),
  ((1, 23), [Dir.S, Dir.E]),
  ((2, 23), [Dir.S, Dir.E]),
  ((3, 23), [Dir.S, Dir.E]),
  ((4, 23), [Dir.S, Dir.E]),
  ((5, 23), [Dir.S, Dir.E]),
  ((6, 23), [Dir.S, Dir.E]),
  ((7, 23), [Dir.S, Dir.E]),
  ((8, 23), [Dir.S, Dir.E]),
  ((9, 23), [Dir.S, Dir.E]),
  ((10, 23), [Dir.S, Dir.E]),
  ((11, 23), [Dir.S, Dir.E]),
  ((12, 23), [Dir.S, Dir.E]),
  ((13, 23), [Dir.S, Dir.E]),
  ((14, 23), [Dir.S, Dir.E]),
  ((15, 23), [Dir.S, Dir.E]),
  ((16, 23), [Dir.S, Dir.E]),
  ((17, 23), [Dir.S, Dir.E]),
  ((18, 23), [Dir.S, Dir.E]),
  ((19, 23), [Dir.S, Dir.E]),
  ((20, 23), [Dir.S, Dir.E]),
  ((21, 23), [Dir.S, Dir.E]),
  ((22, 23), [Dir.S, Dir.E]),
  ((22, 2), [Dir.S, Dir.E]),
  ((22, 3), [Dir.S, Dir.E]),
  ((22, 4), [Dir.S, Dir.E]),
  ((22, 5), [Dir.S, Dir.E]),
  ((22, 8), [Dir.S, Dir.E]),
  ((22, 9), [Dir.S, Dir.E]),
  ((22, 10), [Dir.S, Dir.E]),
  ((22, 11), [Dir.S, Dir.E]),
  ((22, 14), [Dir.S, Dir.E]),
  ((22, 15), [Dir.S, Dir.E]),
  ((22, 16), [Dir.S, Dir.E]),
  ((22, 17), [Dir.S, Dir.E]),
  ((22, 18), [Dir.S, Dir.E]),
  ((22, 19), [Dir.S, Dir.E]),
  ((22, 20), [Dir.S, Dir.E]),
  ((22, 21), [Dir.S, Dir.E]),
  ((22, 22), [Dir.S, Dir.E]),
  ((6, 2), [Dir.S, Dir.E]),
  ((6, 3), [Dir.S, Dir.E]),
  ((6, 4), [Dir.S, Dir.E]),
  ((6, 5), [Dir.S, Dir.E]),
  ((6, 6), [Dir.S, Dir.E]),
  ((6, 7), [Dir.S, Dir.E]),
  ((6, 8), [Dir.S, Dir.E]),
  ((6, 9), [Dir.S, Dir.E]),
  ((6, 10), [Dir.S, Dir.E]),
  ((6, 11), [Dir.S, Dir.E]),
  ((14, 2), [Dir.S, Dir.E]),
  ((14, 3), [Dir.S, Dir.E]),
  ((14, 4), [Dir.S, Dir.E]),
  ((14, 5), [Dir.S, Dir.E]),
  ((14, 6), [Dir.S, Dir.E]),
  ((14, 7), [Dir.S, Dir.E]),
  ((14, 8), [Dir.S, Dir.E]),
  ((14, 9), [Dir.S, Dir.E]),
  ((14, 10), [Dir.S, Dir.E]),
  ((14, 11), [Dir.S, Dir.E]),
  ((1, 15), [Dir.S, Dir.E]),
  ((2, 15), [Dir.S, Dir.E]),
  ((3, 15), [Dir.S, Dir.E]),
  ((4, 15), [Dir.S, Dir.E]),
  ((5, 15), [Dir.S, Dir.E]),
  ((8, 15), [Dir.S, Dir.E]),
  ((9, 15), [Dir.S, Dir.E]),
  ((10, 15), [Dir.S, Dir.E]),
  ((11, 15), [Dir.S, Dir.E]),
  ((8, 19), [Dir.S, Dir.E]),
  ((9, 19), [Dir.S, Dir.E]),
  ((10, 19), [Dir.S, Dir.E]),
  ((11, 19), [Dir.S, Dir.E]),
  ((14, 2), [Dir.S, Dir.E]),
  ((14, 3), [Dir.S, Dir.E]),
  ((14, 4), [Dir.S, Dir.E]),
  ((14, 5), [Dir.S, Dir.E]),
  ((14, 8), [Dir.S, Dir.E]),
  ((14, 9), [Dir.S, Dir.E]),
  ((14, 10), [Dir.S, Dir.E]),
  ((14, 11), [Dir.S, Dir.E]),
  ((14, 16), [Dir.S, Dir.E]),
  ((14, 17), [Dir.S, Dir.E]),
  ((14, 18), [Dir.S, Dir.E]),
  ((14, 19), [Dir.S, Dir.E]),
  ((14, 20), [Dir.S, Dir.E]),
  ((14, 21), [Dir.S, Dir.E]),
  ((16, 15), [Dir.S, Dir.E]),
  ((17, 15), [Dir.S, Dir.E]),
  ((18, 15), [Dir.S, Dir.E]),
  ((19, 15), [Dir.S, Dir.E]),
  ((20, 15), [Dir.S, Dir.E]),
  ((21, 15), [Dir.S, Dir.E]),
  ((18, 16), [Dir.S, Dir.E]),
  ((18, 17), [Dir.S, Dir.E]),
  ((18, 18), [Dir.S, Dir.E]),
  ((18, 19), [Dir.S, Dir.E]),
  ((18, 20), [Dir.S, Dir.E]),
  ((18, 21), [Dir.S, Dir.E]),
  ((14, 14), [Dir.S, Dir.E]),
  ((14, 15), [Dir.S, Dir.E]),
  ((15, 14), [Dir.S, Dir.E]),
  ((15, 15), [Dir.S, Dir.E]),
  ((6, 12), [Dir.N, Dir.S, Dir.W]),
  ((7, 12), [Dir.N, Dir.S, Dir.W]),
  ((6, 18), [Dir.N, Dir.E, Dir.W]),
  ((6, 19), [Dir.N, Dir.E, Dir.W]),
  ((7, 18), [Dir.N, Dir.E, Dir.W]),
  ((7, 19), [Dir.N, Dir.E, Dir.W]),
  ((12, 5), [Dir.N, Dir.E, Dir.W]),
  ((12, 6), [Dir.N, Dir.E, Dir.W]),
  ((13, 22), [Dir.N, Dir.S, Dir.E]),
  ((14, 22), [Dir.N, Dir.S, Dir.E]),
  ((18, 22), [Dir.N, Dir.S, Dir.E]),
  ((19, 22), [Dir.N, Dir.S, Dir.E]),
  ((22, 12), [Dir.S, Dir.E, Dir.W]),
  ((22, 13), [Dir.S, Dir.E, Dir.W]),
  ((22, 6), [Dir.S, Dir.E, Dir.W]),
  ((22, 7), [Dir.S, Dir.E, Dir.W])
]

/-- The positions of `CityModel.create_traffic_lights`. -/
def traffic_light_positions : List Pos := [
  (2, 18), (2, 19), (0, 17), (1, 17), (5, 22), (5, 23),
  (6, 2), (7, 2), (6, 7), (7, 7), (6, 21), (7, 21),
  (8, 0), (8, 1), (8, 5), (8, 6), (17, 14), (17, 15),
  (18, 16), (19, 16)]

end CitySim

namespace CitySim

/-- `buildings_layer` of the built-in map: true on any configured
building cell. -/
def builtinBuildings (p : Pos) : Bool :=
  buildings_positions.any fun b => decide (p ∈ b)

/-- `parking_lot_layer` of the built-in map. -/
def builtinParking (p : Pos) : Bool := decide (p ∈ parking_lot_positions)

/-- The final value a cell gets from the `custom_road_directions` dict
literal: the last entry with that key, as in Python. -/
def customDirsAt (p : Pos) : Option (List Dir) :=
  ((custom_road_directions.filter fun e => decide (e.1 = p)).getLast?).map Prod.snd

/-- `road_direction_layer` of the built-in map.  The custom assignment
skips building and parking cells; the default pass then gives every
non-building cell still unset (parking lots included) all four
directions.  Building cells keep `None` in the source — a direction
lookup there would raise, and is never exercised since cars never occupy
buildings; the embedding uses `[]`.  Python stores `list(set(...))`,
whose membership the embedding's `dedup` preserves. -/
def builtinRoadDirs (p : Pos) : List Dir :=
  if builtinBuildings p then []
  else if builtinParking p then [Dir.N, Dir.S, Dir.E, Dir.W]
  else
    match customDirsAt p with
    | some ds => ds.dedup
    | none => [Dir.N, Dir.S, Dir.E, Dir.W]

/-- The layers `CityModel.setup_environment` builds (the source writes
fixed coordinates into `width × height` numpy arrays; the app
instantiates 24 × 24). -/
def builtinLayout (width height : Nat) : Layout :=
  { width := width, height := height
    buildings := builtinBuildings
    parkingLot := builtinParking
    roadDirs := builtinRoadDirs }

/-- Arguments of a Python constructor call, as the call protocol sees
them (the implicit `self` excluded). -/
inductive PyArg
  | modelRef
  | posArg (p : Pos)
deriving DecidableEq, Repr

/-- `TrafficLightAgent.__init__(self, model)` declares exactly one
caller-supplied parameter. -/
def trafficLightInitParams : Nat := 1

/-- The Python call protocol for `TrafficLightAgent(...)`: if the
argument list does not match `__init__`'s parameter list the call raises
`TypeError`; otherwise the initializer runs (state `'Green'`, timer 0,
default durations; no grid placement happens anywhere). -/
def TrafficLightAgent.new (args : List PyArg) : Except String TrafficLight :=
  if args.length = trafficLightInitParams then
    Except.ok { pos := none, state := TLState.Green, timer := 0
                durations := { green := 5, yellow := 2, red := 5 } }
  else
    Except.error "TypeError: TrafficLightAgent.init takes 2 positional arguments but 3 were given"

/-- `CityModel.create_traffic_lights`: for every configured position the
source calls `TrafficLightAgent(self, pos)` — two arguments against a
one-parameter `__init__`. -/
def create_traffic_lights : Except String (List TrafficLight) :=
  traffic_light_positions.mapM fun pos =>
    TrafficLightAgent.new [PyArg.modelRef, PyArg.posArg pos]

/-- All grid cells, x-major. -/
def gridCells (L : Layout) : List Pos :=
  (List.range L.width).flatMap fun x =>
    (List.range L.height).map fun y => ((x : Int), (y : Int))

/-- One iteration of the `create_cars` loop: fresh id, start position
drawn from the still-unused parking lots (removed afterwards) or — lots
exhausted — from the empty road cells (`random.choice` on an empty
candidate list would raise in Python; modelled as leaving the car
unplaced), placement, random destination excluding the start, initial
path computation. -/
def create_one_car (s : MState) (avail : List Pos) : MState × List Pos :=
  let uid := s.nextId
  let newCar : Car :=
    { uid := uid, pos := none, destination := none, active := true, path := [] }
  let s0 := { s with nextId := uid + 1 }
  let pick : Option Pos × List Pos :=
    match avail with
    | a :: rest =>
      (some (randChoice s0 (a :: rest) a), avail.erase (randChoice s0 (a :: rest) a))
    | [] =>
      match (gridCells s0.layout).filter (fun q =>
          !s0.layout.buildings q && !s0.layout.parkingLot q &&
          !(s0.cars.any fun c => decide (c.pos = some q)) &&
          !(s0.lights.any fun l => decide (l.pos = some q))) with
      | [] => (none, [])
      | r :: rs => (some (randChoice s0 (r :: rs) r), [])
  match pick with
  | (none, avail') => ({ s0 with cars := s0.cars ++ [newCar] }, avail')
  | (some start, avail') =>
    let s1 := bumpRng { s0 with cars := s0.cars ++ [{ newCar with pos := some start }] }
    let s2 := assign_random_destination s1 uid (some start)
    let dest := (findCar s2 uid).bind Car.destination
    (setCarPath s2 uid (calcPath s2 start dest), avail')

/-- The `create_cars` loop over the requested number of cars. -/
def create_cars_aux : Nat → MState → List Pos → MState
  | 0, s, _ => s
  | n + 1, s, avail =>
    let r := create_one_car s avail
    create_cars_aux n r.1 r.2

/-- `CityModel.create_cars`. -/
def create_cars (n : Nat) (s : MState) : MState :=
  create_cars_aux n s (s.parking_lot_ids.map Prod.fst)

/-- `CityModel.__init__` — the spec's `initialize(config)` — for the
built-in map: build the layers and the `parking_lot_ids` dict, create
the agent sets, create the traffic lights, then create the cars.  A
raised exception propagates out of the constructor: no model value is
produced. -/
def CityModel.initModel (num_cars width height : Nat)
    (seedStream : Nat → Nat) : Except String MState :=
  let base : MState :=
    { layout := builtinLayout width height
      parking_lot_ids := parking_lot_positions.enum.map fun e => (e.2, e.1 + 1)
      cars := [], lights := []
      rngStream := seedStream, rngIdx := 0, nextId := 1 }
  match create_traffic_lights with
  | Except.error e => Except.error e
  | Except.ok lights =>
    Except.ok (create_cars num_cars { base with lights := lights })

/-- C2 (code bug).  Constructing the model on the app's own invocation
(`CityModel(num_cars=5, width=24, height=24)`) — a *valid* configuration
per the spec — raises `TypeError` inside `create_traffic_lights`,
because `TrafficLightAgent(self, pos)` passes a position to an
`__init__(self, model)` that accepts none; construction never completes,
for this or any configuration with a nonempty traffic-light list.  (The
spec's promised out-of-bounds / building-and-parking-overlap validation
does not exist in the code either; the constructor fails before reaching
any of it.) -/
theorem construction_raises_type_error :
    CityModel.initModel 5 24 24 (fun _ => 0) =
      Except.error "TypeError: TrafficLightAgent.init takes 2 positional arguments but 3 were given" ∧
    traffic_light_positions ≠ [] := by
  constructor
  · rfl
  · decide

end CitySim

namespace CitySim

/-! ## Optimality of `find_path` on an obstacle-free grid (claim C5)

The proof follows the classical A*-with-exact-heuristic argument.  On an
obstacle-free grid the Manhattan heuristic is exact, so every expanded
node lies on a monotone (staircase) path from `start` to `goal` with an
exact `g_score`; each loop iteration permanently settles one such node,
bounding the number of iterations by the rectangle spanned by `start`
and `goal`; and the `came_from` chain from `goal` has exactly
`heuristic start goal` links, because `g_score` drops by at least one
per link while consecutive links are grid neighbours. -/

/-- In-bounds, as the open layout's bounds check. -/
theorem oob_open_iff (W H : Nat) (p : Pos) :
    out_of_bounds (openLayout W H) p = false ↔
      0 ≤ p.1 ∧ p.1 < (W : Int) ∧ 0 ≤ p.2 ∧ p.2 < (H : Int) := by
  unfold out_of_bounds openLayout
  simp only [Bool.or_eq_false_iff, decide_eq_false_iff_not, not_lt, not_le]
  omega

theorem heuristic_self (p : Pos) : heuristic p p = 0 := by
  unfold heuristic; omega

theorem heuristic_eq_zero_iff (p q : Pos) : heuristic p q = 0 ↔ p = q := by
  unfold heuristic
  rw [Prod.ext_iff]
  omega

theorem heuristic_triangle (a b c : Pos) :
    heuristic a c ≤ heuristic a b + heuristic b c := by
  unfold heuristic; omega

theorem heuristic_comm (a b : Pos) : heuristic a b = heuristic b a := by
  unfold heuristic; omega

/-- The next cell on the monotone path from `p` toward `goal` (x first,
then y). -/
def towardGoal (goal p : Pos) : Pos :=
  if p.1 < goal.1 then (p.1 + 1, p.2)
  else if goal.1 < p.1 then (p.1 - 1, p.2)
  else if p.2 < goal.2 then (p.1, p.2 + 1)
  else (p.1, p.2 - 1)

theorem towardGoal_adj (goal p : Pos) (h : p ≠ goal) :
    heuristic p (towardGoal goal p) = 1 ∧
    heuristic (towardGoal goal p) p = 1 := by
  have h' : p.1 ≠ goal.1 ∨ p.2 ≠ goal.2 := by
    by_contra hc
    push_neg at hc
    exact h (Prod.ext hc.1 hc.2)
  unfold towardGoal heuristic
  split
  · constructor <;> simp <;> omega
  · split
    · constructor <;> simp <;> omega
    · split
      · constructor <;> simp <;> omega
      · constructor <;> simp <;> omega

theorem towardGoal_closer (goal p : Pos) (h : p ≠ goal) :
    heuristic (towardGoal goal p) goal + 1 = heuristic p goal := by
  have h' : p.1 ≠ goal.1 ∨ p.2 ≠ goal.2 := by
    by_contra hc
    push_neg at hc
    exact h (Prod.ext hc.1 hc.2)
  unfold towardGoal heuristic
  split
  · simp; omega
  · split
    · simp; omega
    · split
      · simp; omega
      · simp; omega

theorem towardGoal_inB (W H : Nat) (goal p : Pos) (h : p ≠ goal)
    (hp : out_of_bounds (openLayout W H) p = false)
    (hg : out_of_bounds (openLayout W H) goal = false) :
    out_of_bounds (openLayout W H) (towardGoal goal p) = false := by
  rw [oob_open_iff] at *
  unfold towardGoal
  split
  · simp; omega
  · split
    · simp; omega
    · split
      · simp; omega
      · have h' : p.1 ≠ goal.1 ∨ p.2 ≠ goal.2 := by
          by_contra hc
          push_neg at hc
          exact h (Prod.ext hc.1 hc.2)
        simp; omega

/-- On the monotone rectangle (`heuristic start p + heuristic p goal =
heuristic start goal`), stepping toward the goal stays in the rectangle
and increases the exact distance from the start by one. -/
theorem towardGoal_exact (start goal p : Pos) (h : p ≠ goal)
    (hR : heuristic start p + heuristic p goal = heuristic start goal) :
    heuristic start (towardGoal goal p) = heuristic start p + 1 ∧
    heuristic start (towardGoal goal p) + heuristic (towardGoal goal p) goal
      = heuristic start goal := by
  have h1 := towardGoal_closer goal p h
  have h2 := (towardGoal_adj goal p h).1
  have h3 := heuristic_triangle start p (towardGoal goal p)
  have h4 := heuristic_triangle start (towardGoal goal p) goal
  omega

end CitySim

namespace CitySim

/-- The cells between `start` and `goal` (coordinatewise), i.e. exactly
the cells on monotone shortest paths. -/
def rectangle (start goal : Pos) : Finset Pos :=
  (Finset.Icc (min start.1 goal.1) (max start.1 goal.1)) ×ˢ
    (Finset.Icc (min start.2 goal.2) (max start.2 goal.2))

theorem mem_rectangle_iff (start goal p : Pos) :
    p ∈ rectangle start goal ↔
      heuristic start p + heuristic p goal = heuristic start goal := by
  unfold rectangle heuristic
  rw [Finset.mem_product, Finset.mem_Icc, Finset.mem_Icc]
  omega

theorem rectangle_card_le (W H : Nat) (start goal : Pos)
    (hs : out_of_bounds (openLayout W H) start = false)
    (hg : out_of_bounds (openLayout W H) goal = false) :
    (rectangle start goal).card ≤ W * H := by
  rw [oob_open_iff] at hs hg
  unfold rectangle
  rw [Finset.card_product, Int.card_Icc, Int.card_Icc]
  have h1 : (max start.1 goal.1 + 1 - min start.1 goal.1).toNat ≤ W := by omega
  have h2 : (max start.2 goal.2 + 1 - min start.2 goal.2).toNat ≤ H := by omega
  exact Nat.mul_le_mul h1 h2

/-- The loop measure: rectangle cells not yet settled (settled = exact
`g_score` and no longer in the open set). -/
def phi (start goal : Pos) (σ : AState) : Nat :=
  ((rectangle start goal).filter fun p =>
    ¬(σ.g_score p = some (heuristic start p) ∧ p ∉ σ.open_set)).card

/-! ### The frontier scan -/

theorem fLt_irrefl (a : Option Nat) : fLt a a = false := by
  cases a <;> simp [fLt]

theorem fLt_trans {a b c : Option Nat} (h1 : fLt a b = true)
    (h2 : fLt b c = true) : fLt a c = true := by
  cases a <;> cases b <;> cases c <;> simp_all [fLt] <;> omega

/-- From `¬(a < b)` and `a < c` conclude `b < c` (in the
missing-is-infinity order of `fLt`). -/
theorem fLt_of_not_lt {a b c : Option Nat} (h1 : fLt a b = false)
    (h2 : fLt a c = true) : fLt b c = true := by
  cases a <;> cases b <;> cases c <;> simp_all [fLt] <;> omega

theorem minByF_mem (f : Pos → Option Nat) :
    ∀ (l : List Pos) (b : Pos), minByF f b l ∈ b :: l := by
  intro l
  induction l with
  | nil => intro b; simp [minByF]
  | cons q rest ih =>
    intro b
    unfold minByF
    by_cases hlt : fLt (f q) (f b) = true
    · rw [if_pos hlt]
      rcases List.mem_cons.mp (ih q) with h | h
      · rw [h]
        exact List.mem_cons.mpr (Or.inr (List.mem_cons_self q rest))
      · exact List.mem_cons.mpr (Or.inr (List.mem_cons.mpr (Or.inr h)))
    · rw [if_neg hlt]
      rcases List.mem_cons.mp (ih b) with h | h
      · exact List.mem_cons.mpr (Or.inl h)
      · exact List.mem_cons.mpr (Or.inr (List.mem_cons.mpr (Or.inr h)))

theorem minByF_min (f : Pos → Option Nat) :
    ∀ (l : List Pos) (b : Pos), ∀ p ∈ b :: l,
      fLt (f p) (f (minByF f b l)) = false := by
  intro l
  induction l with
  | nil =>
    intro b p hp
    rcases List.mem_cons.mp hp with rfl | h
    · unfold minByF; exact fLt_irrefl _
    · cases h
  | cons q rest ih =>
    intro b p hp
    unfold minByF
    by_cases hlt : fLt (f q) (f b) = true
    · rw [if_pos hlt]
      have hseed := ih q q (List.mem_cons_self q rest)
      rcases List.mem_cons.mp hp with rfl | h
      · -- p = b; a strict improver q exists, so b cannot beat the result
        by_contra hc
        rw [Bool.not_eq_false] at hc
        exact absurd (fLt_trans hlt hc) (by rw [hseed]; simp)
      · rcases List.mem_cons.mp h with rfl | h2
        · exact hseed
        · exact ih q p (List.mem_cons.mpr (Or.inr h2))
    · rw [if_neg hlt]
      have hbF : fLt (f q) (f b) = false := by
        rw [Bool.not_eq_true] at hlt; exact hlt
      have hseed := ih b b (List.mem_cons_self b rest)
      rcases List.mem_cons.mp hp with rfl | h
      · exact hseed
      · rcases List.mem_cons.mp h with rfl | h2
        · -- p = q lost the comparison with b, which the result does not beat
          by_contra hc
          rw [Bool.not_eq_false] at hc
          exact absurd (fLt_of_not_lt hbF hc) (by rw [hseed]; simp)
        · exact ih b p (List.mem_cons.mpr (Or.inr h2))

end CitySim

namespace CitySim

theorem mem_neighborhood_iff (L : Layout) (p q : Pos) :
    q ∈ get_neighborhood L p ↔
      (q = (p.1 - 1, p.2) ∨ q = (p.1, p.2 - 1) ∨ q = (p.1, p.2 + 1) ∨
        q = (p.1 + 1, p.2)) ∧ out_of_bounds L q = false := by
  unfold get_neighborhood
  rw [List.mem_filter]
  simp [Bool.not_eq_true']

theorem neighborhood_adj (L : Layout) (p q : Pos)
    (h : q ∈ get_neighborhood L p) :
    heuristic p q = 1 ∧ heuristic q p = 1 ∧ q ≠ p := by
  rcases (mem_neighborhood_iff L p q).mp h with ⟨h4, _⟩
  have hne : ∀ a b : Pos, a.1 ≠ b.1 ∨ a.2 ≠ b.2 → a ≠ b := by
    intro a b hab hc
    rw [hc] at hab
    rcases hab with h | h <;> exact h rfl
  rcases h4 with rfl | rfl | rfl | rfl
  · exact ⟨by unfold heuristic; simp, by unfold heuristic; simp,
      hne _ _ (Or.inl (by simp))⟩
  · exact ⟨by unfold heuristic; simp, by unfold heuristic; simp,
      hne _ _ (Or.inr (by simp))⟩
  · exact ⟨by unfold heuristic; simp, by unfold heuristic; simp,
      hne _ _ (Or.inr (by simp))⟩
  · exact ⟨by unfold heuristic; simp, by unfold heuristic; simp,
      hne _ _ (Or.inl (by simp))⟩

theorem towardGoal_mem_neighborhood (W H : Nat) (goal p : Pos) (h : p ≠ goal)
    (hp : out_of_bounds (openLayout W H) p = false)
    (hg : out_of_bounds (openLayout W H) goal = false) :
    towardGoal goal p ∈ get_neighborhood (openLayout W H) p := by
  rw [mem_neighborhood_iff]
  refine ⟨?_, towardGoal_inB W H goal p h hp hg⟩
  unfold towardGoal
  split
  · exact Or.inr (Or.inr (Or.inr rfl))
  · split
    · exact Or.inl rfl
    · split
      · exact Or.inr (Or.inr (Or.inl rfl))
      · exact Or.inr (Or.inl rfl)

theorem md_W (p : Pos) : movement_direction p (p.1 - 1, p.2) = some Dir.W := by
  unfold movement_direction
  dsimp only
  rw [if_neg (by omega : ¬(p.1 - 1 - p.1 = 1)), if_pos (by omega : p.1 - 1 - p.1 = -1)]

theorem md_S (p : Pos) : movement_direction p (p.1, p.2 - 1) = some Dir.S := by
  unfold movement_direction
  dsimp only
  rw [if_neg (by omega : ¬(p.1 - p.1 = 1)), if_neg (by omega : ¬(p.1 - p.1 = -1)),
    if_neg (by omega : ¬(p.2 - 1 - p.2 = 1)), if_pos (by omega : p.2 - 1 - p.2 = -1)]

theorem md_N (p : Pos) : movement_direction p (p.1, p.2 + 1) = some Dir.N := by
  unfold movement_direction
  dsimp only
  rw [if_neg (by omega : ¬(p.1 - p.1 = 1)), if_neg (by omega : ¬(p.1 - p.1 = -1)),
    if_pos (by omega : p.2 + 1 - p.2 = 1)]

theorem md_E (p : Pos) : movement_direction p (p.1 + 1, p.2) = some Dir.E := by
  unfold movement_direction
  dsimp only
  rw [if_pos (by omega : p.1 + 1 - p.1 = 1)]

theorem is_valid_move_open (W H : Nat) (p q : Pos)
    (hq : q ∈ get_neighborhood (openLayout W H) p) :
    is_valid_move (openState W H) p q = true := by
  rcases (mem_neighborhood_iff _ p q).mp hq with ⟨h4, hb⟩
  unfold is_valid_move openState emptyOn
  dsimp only
  rw [hb]
  rcases h4 with rfl | rfl | rfl | rfl
  · rw [md_W]; simp [openLayout, is_building]
  · rw [md_S]; simp [openLayout, is_building]
  · rw [md_N]; simp [openLayout, is_building]
  · rw [md_E]; simp [openLayout, is_building]

theorem gvn_open (W H : Nat) (p : Pos) :
    get_valid_neighbors (openState W H) p = get_neighborhood (openLayout W H) p := by
  unfold get_valid_neighbors
  have hl : (openState W H).layout = openLayout W H := rfl
  rw [hl]
  apply List.filter_eq_self.mpr
  intro q hq
  exact is_valid_move_open W H p q hq

end CitySim

namespace CitySim

theorem mem_addIfAbsent_iff (l : List Pos) (p q : Pos) :
    q ∈ addIfAbsent l p ↔ q ∈ l ∨ q = p := by
  unfold addIfAbsent
  by_cases hp : p ∈ l
  · rw [if_pos hp]
    constructor
    · exact Or.inl
    · rintro (h | rfl)
      · exact h
      · exact hp
  · rw [if_neg hp]
    simp [List.mem_append]

theorem addIfAbsent_nodup (l : List Pos) (p : Pos) (h : l.Nodup) :
    (addIfAbsent l p).Nodup := by
  unfold addIfAbsent
  by_cases hp : p ∈ l
  · rw [if_pos hp]; exact h
  · rw [if_neg hp]
    rw [List.nodup_append]
    refine ⟨h, List.nodup_singleton p, ?_⟩
    intro x hx
    simp only [List.mem_singleton]
    intro hxp
    rw [hxp] at hx
    exact hp hx

theorem dupd_same {α : Type} (m : Pos → Option α) (k : Pos) (v : α) :
    dupd m k v k = some v := by simp [dupd]

theorem dupd_other {α : Type} (m : Pos → Option α) (k : Pos) (v : α)
    (x : Pos) (h : x ≠ k) : dupd m k v x = m x := by simp [dupd, h]

/-- The invariant of `find_path`'s A* loop over the open grid. -/
structure AInv (W H : Nat) (start goal : Pos) (σ : AState) : Prop where
  nodup : σ.open_set.Nodup
  open_g : ∀ p ∈ σ.open_set, (σ.g_score p).isSome
  gstart : σ.g_score start = some 0
  f_eq : ∀ p, σ.f_score p = (σ.g_score p).map (fun v => v + heuristic p goal)
  g_lower : ∀ p v, σ.g_score p = some v → heuristic start p ≤ v
  g_bound : ∀ p, (σ.g_score p).isSome → out_of_bounds (openLayout W H) p = false
  exists_exact : ∃ w, w ∈ σ.open_set ∧ σ.g_score w = some (heuristic start w) ∧
      heuristic start w + heuristic w goal = heuristic start goal
  goal_open : (σ.g_score goal).isSome → goal ∈ σ.open_set
  relaxed : ∀ p, heuristic start p + heuristic p goal = heuristic start goal →
      σ.g_score p = some (heuristic start p) → p ∉ σ.open_set → p ≠ goal →
      σ.g_score (towardGoal goal p) = some (heuristic start (towardGoal goal p))
  cf_adj : ∀ p q, σ.came_from p = some q → heuristic q p = 1
  cf_g : ∀ p q, σ.came_from p = some q →
      ∃ vp vq, σ.g_score p = some vp ∧ σ.g_score q = some vq ∧ vq < vp
  cf_start : ∀ p, (σ.g_score p).isSome → σ.came_from p = none → p = start

/-- What holds of the intermediate states of the neighbour-relaxation
fold, relative to the loop state `σ` at the start of the expansion of
`current`. -/
structure Mid (W H : Nat) (start goal current : Pos) (σ τ : AState) : Prop where
  nodup : τ.open_set.Nodup
  open_g : ∀ p ∈ τ.open_set, (τ.g_score p).isSome
  f_eq : ∀ p, τ.f_score p = (τ.g_score p).map (fun v => v + heuristic p goal)
  g_lower : ∀ p v, τ.g_score p = some v → heuristic start p ≤ v
  g_bound : ∀ p, (τ.g_score p).isSome → out_of_bounds (openLayout W H) p = false
  g_dom : ∀ p v0, σ.g_score p = some v0 → ∃ v, τ.g_score p = some v ∧ v ≤ v0
  g_char : ∀ p v, τ.g_score p = some v → σ.g_score p = some v ∨
      (p ∈ τ.open_set ∧ heuristic current p = 1 ∧
        v = heuristic start current + 1)
  g_cur : τ.g_score current = σ.g_score current
  open_sup : ∀ p ∈ σ.open_set.erase current, p ∈ τ.open_set
  open_new : ∀ p ∈ τ.open_set, p ∉ σ.open_set.erase current →
      heuristic current p = 1 ∧
        (σ.g_score p = none ∨
          ∃ v0, σ.g_score p = some v0 ∧ heuristic start current + 1 < v0)
  cf_adj : ∀ p q, τ.came_from p = some q → heuristic q p = 1
  cf_g : ∀ p q, τ.came_from p = some q →
      ∃ vp vq, τ.g_score p = some vp ∧ τ.g_score q = some vq ∧ vq < vp
  cf_start : ∀ p, (τ.g_score p).isSome → τ.came_from p = none → p = start

end CitySim

namespace CitySim

/-- Relaxing one neighbour of `current` preserves the fold relation;
afterwards the neighbour's `g_score` is at most `g(current) + 1`, and no
node's `g_score` has increased. -/
theorem relax_step (W H : Nat) (start goal current : Pos) (σ τ : AState)
    (nb : Pos)
    (hc_g : σ.g_score current = some (heuristic start current))
    (hm : Mid W H start goal current σ τ)
    (hadj : heuristic current nb = 1)
    (hnb : out_of_bounds (openLayout W H) nb = false)
    (hne : nb ≠ current) :
    Mid W H start goal current σ (relax current τ nb goal) ∧
    (∃ v, (relax current τ nb goal).g_score nb = some v ∧
      v ≤ heuristic start current + 1) ∧
    (∀ p v1, τ.g_score p = some v1 →
      ∃ v, (relax current τ nb goal).g_score p = some v ∧ v ≤ v1) := by
  have htent : (τ.g_score current).getD 0 + 1 = heuristic start current + 1 := by
    rw [hm.g_cur, hc_g]
    rfl
  have htri : heuristic start nb ≤ heuristic start current + 1 := by
    have := heuristic_triangle start current nb
    omega
  unfold relax
  dsimp only
  simp only [htent]
  by_cases hb : (match τ.g_score nb with
      | none => true
      | some v => decide (heuristic start current + 1 < v)) = true
  · rw [if_pos hb]
    have hupd : τ.g_score nb = none ∨
        ∃ v1, τ.g_score nb = some v1 ∧ heuristic start current + 1 < v1 := by
      rcases h0 : τ.g_score nb with _ | v1
      · exact Or.inl rfl
      · right
        refine ⟨v1, rfl, ?_⟩
        rw [h0] at hb
        simpa using hb
    refine ⟨⟨?_, ?_, ?_, ?_, ?_, ?_, ?_, ?_, ?_, ?_, ?_, ?_, ?_⟩, ?_, ?_⟩
    all_goals try dsimp only
    · exact addIfAbsent_nodup _ _ hm.nodup
    · intro p hp
      rcases (mem_addIfAbsent_iff _ _ _).mp hp with hp' | rfl
      · by_cases hpn : p = nb
        · subst hpn; rw [dupd_same]; rfl
        · rw [dupd_other _ _ _ _ hpn]; exact hm.open_g p hp'
      · rw [dupd_same]; rfl
    · intro p
      by_cases hpn : p = nb
      · subst hpn
        rw [dupd_same, dupd_same]
        rfl
      · rw [dupd_other _ _ _ _ hpn, dupd_other _ _ _ _ hpn]
        exact hm.f_eq p
    · intro p v hv
      by_cases hpn : p = nb
      · subst hpn
        rw [dupd_same] at hv
        injection hv with hv
        omega
      · rw [dupd_other _ _ _ _ hpn] at hv
        exact hm.g_lower p v hv
    · intro p hp
      by_cases hpn : p = nb
      · subst hpn; exact hnb
      · rw [dupd_other _ _ _ _ hpn] at hp
        exact hm.g_bound p hp
    · intro p v0 h0
      by_cases hpn : p = nb
      · subst hpn
        rcases hupd with hnone | ⟨v1, hsome, hlt⟩
        · rcases hm.g_dom _ _ h0 with ⟨v, hv, _⟩
          rw [hnone] at hv
          cases hv
        · rcases hm.g_dom _ _ h0 with ⟨v, hv, hvle⟩
          rw [hsome] at hv
          injection hv with hv
          subst hv
          exact ⟨heuristic start current + 1, dupd_same _ _ _, by omega⟩
      · rw [dupd_other _ _ _ _ hpn]
        exact hm.g_dom p v0 h0
    · intro p v hv
      by_cases hpn : p = nb
      · subst hpn
        rw [dupd_same] at hv
        injection hv with hv
        right
        exact ⟨(mem_addIfAbsent_iff _ _ _).mpr (Or.inr rfl), hadj, hv.symm⟩
      · rw [dupd_other _ _ _ _ hpn] at hv
        rcases hm.g_char p v hv with h | ⟨ho, ha, hval⟩
        · exact Or.inl h
        · exact Or.inr ⟨(mem_addIfAbsent_iff _ _ _).mpr (Or.inl ho), ha, hval⟩
    · rw [dupd_other _ _ _ _ (fun h => hne h.symm)]
      exact hm.g_cur
    · intro p hp
      exact (mem_addIfAbsent_iff _ _ _).mpr (Or.inl (hm.open_sup p hp))
    · intro p hp hpe
      rcases (mem_addIfAbsent_iff _ _ _).mp hp with hp' | rfl
      · exact hm.open_new p hp' hpe
      · refine ⟨hadj, ?_⟩
        rcases hupd with hnone | ⟨v1, hsome, hlt⟩
        · rcases h0 : σ.g_score p with _ | v0
          · exact Or.inl rfl
          · rcases hm.g_dom _ _ h0 with ⟨v, hv, _⟩
            rw [hnone] at hv
            cases hv
        · rcases h0 : σ.g_score p with _ | v0
          · exact Or.inl rfl
          · right
            rcases hm.g_dom _ _ h0 with ⟨v, hv, hvle⟩
            rw [hsome] at hv
            injection hv with hv
            exact ⟨v0, rfl, by omega⟩
    · intro p q h
      by_cases hpn : p = nb
      · subst hpn
        rw [if_pos rfl] at h
        injection h with h
        rw [← h]
        exact hadj
      · rw [if_neg hpn] at h
        exact hm.cf_adj p q h
    · intro p q h
      by_cases hpn : p = nb
      · subst hpn
        rw [if_pos rfl] at h
        injection h with h
        subst h
        refine ⟨heuristic start current + 1, heuristic start current,
          dupd_same _ _ _, ?_, by omega⟩
        rw [dupd_other _ _ _ _ (fun hqq => hne hqq.symm), hm.g_cur, hc_g]
      · rw [if_neg hpn] at h
        rcases hm.cf_g p q h with ⟨vp, vq, hgp, hgq, hlt⟩
        by_cases hqn : q = nb
        · subst hqn
          rcases hupd with hnone | ⟨v1, hsome, hlt1⟩
          · rw [hnone] at hgq; cases hgq
          · rw [hsome] at hgq
            injection hgq with hgq
            subst hgq
            exact ⟨vp, heuristic start current + 1,
              by rw [dupd_other _ _ _ _ hpn]; exact hgp, dupd_same _ _ _, by omega⟩
        · exact ⟨vp, vq, by rw [dupd_other _ _ _ _ hpn]; exact hgp,
            by rw [dupd_other _ _ _ _ hqn]; exact hgq, hlt⟩
    · intro p hp hcf
      by_cases hpn : p = nb
      · subst hpn
        rw [if_pos rfl] at hcf
        cases hcf
      · rw [if_neg hpn] at hcf
        rw [dupd_other _ _ _ _ hpn] at hp
        exact hm.cf_start p hp hcf
    · exact ⟨heuristic start current + 1, dupd_same _ _ _, le_refl _⟩
    · intro p v1 h1
      by_cases hpn : p = nb
      · subst hpn
        rcases hupd with hnone | ⟨v2, hsome, hlt⟩
        · rw [hnone] at h1; cases h1
        · rw [hsome] at h1
          injection h1 with h1
          subst h1
          exact ⟨heuristic start current + 1, dupd_same _ _ _, by omega⟩
      · exact ⟨v1, by rw [dupd_other _ _ _ _ hpn]; exact h1, le_refl _⟩
  · rw [if_neg hb]
    have hkeep : ∃ v1, τ.g_score nb = some v1 ∧ v1 ≤ heuristic start current + 1 := by
      rcases h0 : τ.g_score nb with _ | v1
      · rw [h0] at hb; simp at hb
      · rw [h0] at hb
        simp only [decide_eq_true_eq] at hb
        exact ⟨v1, rfl, by omega⟩
    rcases hkeep with ⟨v1, hv1, hle⟩
    exact ⟨hm, ⟨v1, hv1, hle⟩, fun p vp h1 => ⟨vp, h1, le_refl _⟩⟩

end CitySim

namespace CitySim

/-- Folding the relaxation over any list of in-bounds neighbours of
`current` preserves the fold relation; every processed neighbour ends
with `g_score ≤ g(current) + 1`; and no `g_score` increases. -/
theorem relax_fold (W H : Nat) (start goal current : Pos) (σ : AState)
    (hc_g : σ.g_score current = some (heuristic start current)) :
    ∀ (L : List Pos) (τ : AState), Mid W H start goal current σ τ →
    (∀ nb ∈ L, heuristic current nb = 1 ∧
      out_of_bounds (openLayout W H) nb = false ∧ nb ≠ current) →
    Mid W H start goal current σ
      (L.foldl (fun σ' nb => relax current σ' nb goal) τ) ∧
    (∀ nb ∈ L, ∃ v,
      (L.foldl (fun σ' nb => relax current σ' nb goal) τ).g_score nb = some v ∧
      v ≤ heuristic start current + 1) ∧
    (∀ p v1, τ.g_score p = some v1 →
      ∃ v, (L.foldl (fun σ' nb => relax current σ' nb goal) τ).g_score p = some v ∧
        v ≤ v1) := by
  intro L
  induction L with
  | nil =>
    intro τ hm _
    exact ⟨hm, by simp, fun p v1 h1 => ⟨v1, h1, le_refl _⟩⟩
  | cons nb rest ih =>
    intro τ hm hL
    obtain ⟨hadj, hnb, hne⟩ := hL nb (List.mem_cons_self nb rest)
    obtain ⟨hm1, hach1, hmono1⟩ :=
      relax_step W H start goal current σ τ nb hc_g hm hadj hnb hne
    obtain ⟨hmF, hachF, hmonoF⟩ :=
      ih (relax current τ nb goal) hm1
        (fun x hx => hL x (List.mem_cons.mpr (Or.inr hx)))
    rw [List.foldl_cons]
    refine ⟨hmF, ?_, ?_⟩
    · intro x hx
      rcases List.mem_cons.mp hx with rfl | hx'
      · obtain ⟨v1, hv1, hle1⟩ := hach1
        obtain ⟨v, hv, hle⟩ := hmonoF x v1 hv1
        exact ⟨v, hv, by omega⟩
      · exact hachF x hx'
    · intro p v1 h1
      obtain ⟨v2, h2, hle2⟩ := hmono1 p v1 h1
      obtain ⟨v, hv, hle⟩ := hmonoF p v2 h2
      exact ⟨v, hv, by omega⟩

/-- From any settled rectangle node an exact-`g` open node exists: walk
toward the goal until hitting the open frontier (or the goal itself,
which cannot be settled while the loop is still running). -/
theorem rescue (start goal : Pos) (σ2 : AState)
    (hgo : (σ2.g_score goal).isSome → goal ∈ σ2.open_set)
    (hrel : ∀ p, heuristic start p + heuristic p goal = heuristic start goal →
      σ2.g_score p = some (heuristic start p) → p ∉ σ2.open_set → p ≠ goal →
      σ2.g_score (towardGoal goal p) = some (heuristic start (towardGoal goal p))) :
    ∀ (k : Nat) (p : Pos), heuristic p goal ≤ k →
      heuristic start p + heuristic p goal = heuristic start goal →
      σ2.g_score p = some (heuristic start p) →
      ∃ w, w ∈ σ2.open_set ∧ σ2.g_score w = some (heuristic start w) ∧
        heuristic start w + heuristic w goal = heuristic start goal := by
  intro k
  induction k with
  | zero =>
    intro p hk hR hg
    have hpg : p = goal := (heuristic_eq_zero_iff p goal).mp (Nat.le_zero.mp hk)
    subst hpg
    exact ⟨p, hgo (by rw [hg]; rfl), hg, hR⟩
  | succ k ih =>
    intro p hk hR hg
    by_cases hop : p ∈ σ2.open_set
    · exact ⟨p, hop, hg, hR⟩
    · by_cases hpg : p = goal
      · subst hpg
        exact ⟨p, hgo (by rw [hg]; rfl), hg, hR⟩
      · have htow := hrel p hR hg hop hpg
        have h1 := towardGoal_closer goal p hpg
        have h2 := (towardGoal_exact start goal p hpg hR).2
        exact ih (towardGoal goal p) (by omega) h2 htow

end CitySim

namespace CitySim

/-- Expanding the selected node (necessarily an exact-`g` rectangle node)
preserves the loop invariant and strictly decreases the measure. -/
theorem expand_spec (W H : Nat) (start goal current : Pos) (σ : AState)
    (hinv : AInv W H start goal σ)
    (hgoalB : out_of_bounds (openLayout W H) goal = false)
    (hcur_open : current ∈ σ.open_set)
    (hc_g : σ.g_score current = some (heuristic start current))
    (hcur_R : heuristic start current + heuristic current goal
      = heuristic start goal)
    (hne_goal : current ≠ goal) :
    AInv W H start goal (expand (openState W H) goal σ current) ∧
    phi start goal (expand (openState W H) goal σ current)
      < phi start goal σ := by
  have hcurB : out_of_bounds (openLayout W H) current = false :=
    hinv.g_bound current (by rw [hc_g]; rfl)
  have hmid0 : Mid W H start goal current σ
      { σ with open_set := σ.open_set.erase current } := by
    refine ⟨hinv.nodup.erase current, ?_, hinv.f_eq, hinv.g_lower, hinv.g_bound,
      fun p v0 h => ⟨v0, h, le_refl _⟩, fun p v h => Or.inl h, rfl,
      fun p hp => hp, ?_, hinv.cf_adj, hinv.cf_g, hinv.cf_start⟩
    · intro p hp
      exact hinv.open_g p (List.mem_of_mem_erase hp)
    · intro p hp hpe
      exact absurd hp hpe
  have hnbrs : ∀ nb ∈ get_valid_neighbors (openState W H) current,
      heuristic current nb = 1 ∧ out_of_bounds (openLayout W H) nb = false ∧
        nb ≠ current := by
    intro nb hnb
    rw [gvn_open] at hnb
    obtain ⟨h1, h2, h3⟩ := neighborhood_adj _ _ _ hnb
    obtain ⟨_, hB⟩ := (mem_neighborhood_iff _ _ _).mp hnb
    exact ⟨h1, hB, h3⟩
  obtain ⟨hmid, hach, hmono⟩ := relax_fold W H start goal current σ hc_g
    (get_valid_neighbors (openState W H) current)
    { σ with open_set := σ.open_set.erase current } hmid0 hnbrs
  unfold expand
  set τF := (get_valid_neighbors (openState W H) current).foldl
      (fun σ' nb => relax current σ' nb goal)
      { σ with open_set := σ.open_set.erase current } with hτF
  have hF7 : ∀ p, σ.g_score p = some (heuristic start p) →
      τF.g_score p = some (heuristic start p) := by
    intro p hp
    obtain ⟨v, hv, hle⟩ := hmid.g_dom p _ hp
    have hge := hmid.g_lower p v hv
    have hveq : v = heuristic start p := by omega
    rw [hveq] at hv
    exact hv
  have hgoal_open2 : (τF.g_score goal).isSome → goal ∈ τF.open_set := by
    intro hgs
    rcases hgv : τF.g_score goal with _ | v
    · rw [hgv] at hgs; cases hgs
    · rcases hmid.g_char goal v hgv with hleft | ⟨ho, _, _⟩
      · have hmem := hinv.goal_open (by rw [hleft]; rfl)
        exact hmid.open_sup goal
          ((List.mem_erase_of_ne (fun h => hne_goal h.symm)).mpr hmem)
      · exact ho
  have hnotopen : ∀ p, p ≠ current → p ∉ τF.open_set → p ∉ σ.open_set := by
    intro p hpc hpo hps
    exact hpo (hmid.open_sup p ((List.mem_erase_of_ne hpc).mpr hps))
  have hrel2 : ∀ p, heuristic start p + heuristic p goal = heuristic start goal →
      τF.g_score p = some (heuristic start p) → p ∉ τF.open_set → p ≠ goal →
      τF.g_score (towardGoal goal p)
        = some (heuristic start (towardGoal goal p)) := by
    intro p hR hg2 hnop hpg
    by_cases hpc : p = current
    · subst hpc
      have htw_mem : towardGoal goal p ∈
          get_valid_neighbors (openState W H) p := by
        rw [gvn_open]
        exact towardGoal_mem_neighborhood W H goal p hpg hcurB hgoalB
      obtain ⟨v, hv, hle⟩ := hach _ htw_mem
      obtain ⟨hexact, _⟩ := towardGoal_exact start goal p hpg hR
      have hlow := hmid.g_lower _ v hv
      have hveq : v = heuristic start (towardGoal goal p) := by omega
      rw [hveq] at hv
      exact hv
    · rcases hmid.g_char p _ hg2 with hleft | ⟨ho, _, _⟩
      · have hps : p ∉ σ.open_set := hnotopen p hpc hnop
        exact hF7 _ (hinv.relaxed p hR hleft hps hpg)
      · exact absurd ho hnop
  have hAInv : AInv W H start goal τF := by
    refine ⟨hmid.nodup, hmid.open_g, ?_, hmid.f_eq, hmid.g_lower, hmid.g_bound,
      ?_, hgoal_open2, hrel2, hmid.cf_adj, hmid.cf_g, hmid.cf_start⟩
    · obtain ⟨v, hv, hle⟩ := hmid.g_dom start 0 hinv.gstart
      have hveq : v = 0 := Nat.le_zero.mp hle
      rw [hveq] at hv
      exact hv
    · obtain ⟨w, hw_open, hw_exact, hw_R⟩ := hinv.exists_exact
      by_cases hwc : w = current
      · subst hwc
        have htw_mem : towardGoal goal w ∈
            get_valid_neighbors (openState W H) w := by
          rw [gvn_open]
          exact towardGoal_mem_neighborhood W H goal w hne_goal hcurB hgoalB
        obtain ⟨v, hv, hle⟩ := hach _ htw_mem
        obtain ⟨hexact, hRtow⟩ := towardGoal_exact start goal w hne_goal hw_R
        have hlow := hmid.g_lower _ v hv
        have hveq : v = heuristic start (towardGoal goal w) := by omega
        rw [hveq] at hv
        exact rescue start goal τF hgoal_open2 hrel2
          (heuristic (towardGoal goal w) goal) (towardGoal goal w)
          (le_refl _) hRtow hv
      · refine ⟨w, ?_, hF7 w hw_exact, hw_R⟩
        exact hmid.open_sup w ((List.mem_erase_of_ne hwc).mpr hw_open)
  refine ⟨hAInv, ?_⟩
  unfold phi
  apply Finset.card_lt_card
  have hsub : (rectangle start goal).filter (fun p =>
        ¬(τF.g_score p = some (heuristic start p) ∧ p ∉ τF.open_set))
      ⊆ (rectangle start goal).filter (fun p =>
        ¬(σ.g_score p = some (heuristic start p) ∧ p ∉ σ.open_set)) := by
    intro p hp
    rw [Finset.mem_filter] at hp ⊢
    obtain ⟨hrect, hnd2⟩ := hp
    refine ⟨hrect, ?_⟩
    rintro ⟨hex, hnop⟩
    apply hnd2
    refine ⟨hF7 p hex, ?_⟩
    intro hpo2
    by_cases hpc : p = current
    · subst hpc
      exact hnop hcur_open
    · by_cases he : p ∈ σ.open_set.erase current
      · exact hnop (List.mem_of_mem_erase he)
      · obtain ⟨hadj, hbad⟩ := hmid.open_new p hpo2 he
        rcases hbad with hnone | ⟨v0, hv0, hlt⟩
        · rw [hex] at hnone; cases hnone
        · rw [hex] at hv0
          injection hv0 with hv0
          have htr := heuristic_triangle start current p
          omega
  have hcur_notmem : current ∉ (rectangle start goal).filter (fun p =>
      ¬(τF.g_score p = some (heuristic start p) ∧ p ∉ τF.open_set)) := by
    rw [Finset.mem_filter]
    rintro ⟨_, hnd⟩
    apply hnd
    refine ⟨by rw [hmid.g_cur]; exact hc_g, ?_⟩
    intro hc
    by_cases he : current ∈ σ.open_set.erase current
    · exact absurd ((hinv.nodup.mem_erase_iff).mp he).1 (fun h => h rfl)
    · obtain ⟨hadj, _⟩ := hmid.open_new current hc he
      rw [heuristic_self] at hadj
      cases hadj
  have hcur_mem : current ∈ (rectangle start goal).filter (fun p =>
      ¬(σ.g_score p = some (heuristic start p) ∧ p ∉ σ.open_set)) := by
    rw [Finset.mem_filter]
    refine ⟨(mem_rectangle_iff start goal current).mpr hcur_R, ?_⟩
    rintro ⟨_, hno⟩
    exact hno hcur_open
  exact (Finset.ssubset_iff_of_subset hsub).mpr ⟨current, hcur_mem, hcur_notmem⟩

end CitySim

namespace CitySim

/-- Walking `came_from` from a node with `g_score = v` prepends `k`
cells with `k ≤ v` (each link drops `g` by at least one) and
`k ≥ heuristic start cur` (consecutive links are grid neighbours and the
walk ends at `start`). -/
theorem reconstructAux_spec (start : Pos) (σ : AState)
    (hcf_adj : ∀ p q, σ.came_from p = some q → heuristic q p = 1)
    (hcf_g : ∀ p q, σ.came_from p = some q →
      ∃ vp vq, σ.g_score p = some vp ∧ σ.g_score q = some vq ∧ vq < vp)
    (hcf_start : ∀ p, (σ.g_score p).isSome → σ.came_from p = none → p = start) :
    ∀ (fuel : Nat) (cur : Pos) (acc : List Pos) (v : Nat),
      σ.g_score cur = some v → v < fuel →
      ∃ k, (reconstructAux σ.came_from fuel cur acc).length = acc.length + k ∧
        k ≤ v ∧ heuristic start cur ≤ k := by
  intro fuel
  induction fuel with
  | zero =>
    intro cur acc v _ hlt
    exact absurd hlt (by omega)
  | succ fuel ih =>
    intro cur acc v hv hlt
    unfold reconstructAux
    rcases hcf : σ.came_from cur with _ | p
    · have hcur : cur = start := hcf_start cur (by rw [hv]; rfl) hcf
      refine ⟨0, by simp, Nat.zero_le v, ?_⟩
      rw [hcur, heuristic_self]
    · obtain ⟨vp, vq, hgp, hgq, hlt2⟩ := hcf_g cur p hcf
      rw [hv] at hgp
      injection hgp with hgp
      obtain ⟨k, hlen, hkle, hklow⟩ := ih p (p :: acc) vq hgq (by omega)
      refine ⟨k + 1, ?_, by omega, ?_⟩
      · rw [hlen, List.length_cons]
        omega
      · have hadj := hcf_adj cur p hcf
        have htri := heuristic_triangle start p cur
        omega

/-- At the moment the goal is popped with the exact `g_score`, the
reconstructed path has `heuristic start goal + 1` cells. -/
theorem reconstruct_len (start goal : Pos) (σ : AState)
    (hcf_adj : ∀ p q, σ.came_from p = some q → heuristic q p = 1)
    (hcf_g : ∀ p q, σ.came_from p = some q →
      ∃ vp vq, σ.g_score p = some vp ∧ σ.g_score q = some vq ∧ vq < vp)
    (hcf_start : ∀ p, (σ.g_score p).isSome → σ.came_from p = none → p = start)
    (hgoal : σ.g_score goal = some (heuristic start goal))
    (rfuel : Nat) (hr : heuristic start goal < rfuel) :
    (reconstruct_path σ.came_from goal rfuel).length
      = heuristic start goal + 1 := by
  unfold reconstruct_path
  obtain ⟨k, hlen, hkle, hklow⟩ := reconstructAux_spec start σ hcf_adj hcf_g
    hcf_start rfuel goal [goal] _ hgoal hr
  rw [hlen]
  simp only [List.length_singleton]
  omega

end CitySim

namespace CitySim

/-- The main loop argument: from any invariant state whose measure is
below the remaining fuel, the loop returns a path of exactly
`heuristic start goal + 1` cells. -/
theorem astar_loop_len (W H : Nat) (start goal : Pos)
    (hgB : out_of_bounds (openLayout W H) goal = false)
    (rfuel : Nat) (hr : heuristic start goal < rfuel) :
    ∀ (fuel : Nat) (σ : AState), AInv W H start goal σ →
      phi start goal σ < fuel →
      (astarLoop (openState W H) goal rfuel fuel σ).length
        = heuristic start goal + 1 := by
  intro fuel
  induction fuel with
  | zero =>
    intro σ _ h
    exact absurd h (by omega)
  | succ fuel ih =>
    intro σ hinv hphi
    obtain ⟨w, hw_open, hw_exact, hw_R⟩ := hinv.exists_exact
    rcases hos : σ.open_set with _ | ⟨a, t⟩
    · rw [hos] at hw_open
      cases hw_open
    · unfold astarLoop
      rw [hos]
      dsimp only
      set current := minByF σ.f_score a t with hcur
      have hcur_mem : current ∈ σ.open_set := by
        rw [hos]
        exact minByF_mem _ t a
      have hmin : ∀ p ∈ σ.open_set,
          fLt (σ.f_score p) (σ.f_score current) = false := by
        intro p hp
        rw [hos] at hp
        exact minByF_min _ t a p hp
      have hcg_some := hinv.open_g current hcur_mem
      rcases hgc : σ.g_score current with _ | gc
      · rw [hgc] at hcg_some
        cases hcg_some
      · have hfc : σ.f_score current = some (gc + heuristic current goal) := by
          rw [hinv.f_eq, hgc]
          rfl
        have hfw : σ.f_score w = some (heuristic start goal) := by
          rw [hinv.f_eq, hw_exact]
          simp [hw_R]
        have hminw := hmin w hw_open
        rw [hfw, hfc] at hminw
        have hle : gc + heuristic current goal ≤ heuristic start goal := by
          simp only [fLt, decide_eq_false_iff_not, not_lt] at hminw
          exact hminw
        have hlow := hinv.g_lower current gc hgc
        have htri := heuristic_triangle start current goal
        have hgc_exact : gc = heuristic start current := by omega
        have hcur_R : heuristic start current + heuristic current goal
            = heuristic start goal := by omega
        by_cases hcg : current = goal
        · rw [if_pos hcg]
          have h0 : heuristic current goal = 0 := by
            rw [hcg]
            exact heuristic_self goal
          have hD : gc = heuristic start goal := by omega
          rw [hcg] at hgc
          rw [hD] at hgc
          rw [hcg]
          exact reconstruct_len start goal σ hinv.cf_adj hinv.cf_g
            hinv.cf_start hgc rfuel hr
        · rw [if_neg hcg]
          obtain ⟨hainv2, hphi2⟩ := expand_spec W H start goal current σ hinv
            hgB hcur_mem (by rw [hgc, hgc_exact]) hcur_R hcg
          exact ih _ hainv2 (by omega)

end CitySim

namespace CitySim

/-- C5 (confirmed).  On an obstacle-free grid — no buildings, no cars, no
lights, every direction allowed everywhere — `find_path` returns, for
every in-bounds start and goal, a path of exactly
`heuristic start goal + 1` cells (Manhattan distance plus one, endpoints
inclusive), for any fuel exceeding `width * height` (the model's own
fuel, `width * height + 1`, qualifies; the loop is proved to settle a
fresh rectangle cell per iteration, so larger fuel is never consumed). -/
theorem find_path_open_grid_optimal (W H : Nat) (start goal : Pos)
    (hs : out_of_bounds (openLayout W H) start = false)
    (hg : out_of_bounds (openLayout W H) goal = false)
    (fuel : Nat) (hf : W * H < fuel) :
    (find_path (openState W H) start goal fuel).length
      = heuristic start goal + 1 := by
  unfold find_path
  set σ0 : AState :=
    { open_set := [start]
      came_from := fun _ => none
      g_score := fun p => if p = start then some 0 else none
      f_score := fun p => if p = start then some (heuristic start goal) else none }
    with hσ0
  have hinv0 : AInv W H start goal σ0 := by
    refine ⟨?_, ?_, ?_, ?_, ?_, ?_, ?_, ?_, ?_, ?_, ?_, ?_⟩
    · simp [hσ0]
    · intro p hp
      rw [hσ0] at hp ⊢
      simp only [List.mem_singleton] at hp
      subst hp
      simp
    · simp [hσ0]
    · intro p
      rw [hσ0]
      by_cases hp : p = start
      · subst hp
        simp
      · simp [hp]
    · intro p v h
      rw [hσ0] at h
      by_cases hp : p = start
      · subst hp
        simp only [if_pos rfl] at h
        injection h with h
        rw [heuristic_self]
        omega
      · simp [hp] at h
    · intro p h
      rw [hσ0] at h
      by_cases hp : p = start
      · subst hp
        exact hs
      · simp [hp] at h
    · refine ⟨start, ?_, ?_, ?_⟩
      · simp [hσ0]
      · simp [hσ0, heuristic_self]
      · rw [heuristic_self]
        omega
    · intro h
      rw [hσ0] at h ⊢
      by_cases hp : goal = start
      · simp [hp]
      · simp [hp] at h
    · intro p _ hex hnop _
      rw [hσ0] at hex hnop
      by_cases hp : p = start
      · subst hp
        exact absurd (List.mem_singleton_self p) hnop
      · simp [hp] at hex
    · intro p q h
      rw [hσ0] at h
      cases h
    · intro p q h
      rw [hσ0] at h
      cases h
    · intro p h _
      rw [hσ0] at h
      by_cases hp : p = start
      · exact hp
      · simp [hp] at h
  have hphibound : phi start goal σ0 ≤ W * H :=
    le_trans (Finset.card_filter_le _ _) (rectangle_card_le W H start goal hs hg)
  have hWHb := hs
  rw [oob_open_iff] at hWHb
  have hW1 : 1 ≤ W := by omega
  have hH1 : 1 ≤ H := by
    have := hWHb
    omega
  have hkey : W + H ≤ W * H + 1 := by
    have h1 : (1 : Int) ≤ (W : Int) := by exact_mod_cast hW1
    have h2 : (1 : Int) ≤ (H : Int) := by exact_mod_cast hH1
    have hz : (W : Int) + H ≤ (W : Int) * H + 1 := by
      nlinarith [mul_nonneg (by linarith : (0 : Int) ≤ (W : Int) - 1)
        (by linarith : (0 : Int) ≤ (H : Int) - 1)]
    exact_mod_cast hz
  have hD : heuristic start goal < fuel := by
    have hgb := hg
    rw [oob_open_iff] at hgb
    unfold heuristic
    omega
  exact astar_loop_len W H start goal hg fuel hD fuel σ0 hinv0
    (lt_of_le_of_lt hphibound hf)

/-- Witness for C5 on the 3×3 open grid from `(0,0)` to `(2,1)`. -/
theorem find_path_open_grid_optimal_witness :
    (find_path (openState 3 3) ((0 : Int), (0 : Int)) (2, 1) 10).length
      = heuristic (0, 0) (2, 1) + 1 :=
  find_path_open_grid_optimal 3 3 (0, 0) (2, 1) (by decide) (by decide) 10
    (by decide)

end CitySim
